import Mathlib

/-!
Derived permissions of sdcardfs (fs/sdcardfs/derived_perm.c).

A shallow embedding of the permission-derivation state machine and of the
OBB redirection predicates of `fs/sdcardfs/derived_perm.c`, followed by the
properties established about them.

Conventions of the embedding
* an inode is a record holding its identity (`i_ino`, standing for the address
  `&info->vfs_inode`), its `i_mode`, and its `sdcardfs_inode_info`;
* C functions that mutate the child inode in place become functions that
  return the updated inode;
* the subtree walk works on a memory of inodes by address (`icache`) and on
  dentries that hold inode addresses (`dcache`), so that several dentries can
  point to one inode;
* the package-list collaborators (`get_appid`, `is_excluded`,
  `multiuser_get_uid`) are parameters, gathered in `packagelist`;
* `unsigned long` is 64 bits wide (arm64) and `userid_t` is 32 bits wide.
-/

namespace Sdcardfs

/-! ## Names and case-insensitive comparison -/

/-- A path component or a C string, as the list of its characters (without
the terminating NUL). -/
abbrev Name := List Char

/-- Modelled from the spec: `tolower` of the kernel's ctype.h is not part of
the source file; the spec only says that matching is case-insensitive.
ASCII upper-case letters are mapped to lower case, all else is unchanged. -/
def tolower (c : Char) : Char :=
  if 'A' ≤ c ∧ c ≤ 'Z' then Char.ofNat (c.toNat + 32) else c

/-- Modelled from the spec: `str_n_case_eq(s1, s2, len)` of sdcardfs.h
(`!strncasecmp(s1, s2, len)`) is not part of the source file: the first
`len` characters of both strings agree after case folding. -/
def str_n_case_eq : Name → Name → Nat → Bool
  | _, _, 0 => true
  | c1 :: s1, c2 :: s2, len + 1 => tolower c1 == tolower c2 && str_n_case_eq s1 s2 len
  | [], [], _ + 1 => true
  | _, _, _ + 1 => false

/-- Modelled from the spec: `qstr_case_eq(q1, q2)` of sdcardfs.h is not part
of the source file: equal lengths and equal contents ignoring case
(case-insensitive, exact component match). -/
def qstr_case_eq (q1 q2 : Name) : Bool :=
  q1.length == q2.length && str_n_case_eq q1 q2 q2.length

/-- Modelled from the spec: `str_case_eq(s1, s2)` of sdcardfs.h
(`!strcasecmp(s1, s2)`) is not part of the source file: the two C strings are
equal ignoring case. -/
def str_case_eq : Name → Name → Bool
  | [], [] => true
  | c1 :: s1, c2 :: s2 => tolower c1 == tolower c2 && str_case_eq s1 s2
  | _, _ => false

/-- The spec's wording "equals ignoring case (same length)". -/
def eq_ignoring_case (a b : Name) : Prop :=
  a.length = b.length ∧ a.map tolower = b.map tolower

instance (a b : Name) : Decidable (eq_ignoring_case a b) := by
  unfold eq_ignoring_case; infer_instance

def q_Android : Name := "Android".toList
def q_data : Name := "data".toList
def q_obb : Name := "obb".toList
def q_media : Name := "media".toList
def q_cache : Name := "cache".toList

/-! ## Integer parsing -/

/-- Modelled from the spec: the width of `unsigned long`, the type of
`user_num`, is not fixed by the source file; the target (msm8996) is arm64,
where it is 64 bits. -/
def ULONG_BITS : Nat := 64

/-- Modelled from the spec: the declaration of `userid_t` (multiuser.h,
`typedef uid_t userid_t`) is not part of the source file; `uid_t` is a 32-bit
unsigned integer. -/
def USERID_BITS : Nat := 32

/-- Error numbers of the kernel (errno-base.h, errno.h). -/
def EINVAL : Int := 22

def ERANGE : Int := 34

/-- Modelled from the spec: the digit loop of `_parse_integer` (lib/kstrtox.c)
in base 10 is not part of the source file. It consumes leading decimal digits
and returns the accumulated value, the number of digits read and the
unread rest of the string. -/
def parse_integer : Name → Nat → Nat → Nat × Nat × Name
  | [], res, rv => (res, rv, [])
  | c :: s, res, rv =>
    if '0' ≤ c ∧ c ≤ '9' then parse_integer s (res * 10 + (c.toNat - 48)) (rv + 1)
    else (res, rv, c :: s)

/-- Modelled from the spec: `kstrtoul(s, 10, &res)` (lib/kstrtox.c) is not part
of the source file; the spec says "any name parseable as a non-negative
integer". One optional leading plus sign, then at least one decimal digit,
then optionally one newline, and nothing else; a value that does not fit an
unsigned long gives -ERANGE, any other malformed input -EINVAL. -/
def kstrtoul (s : Name) : Except Int Nat :=
  let s1 := match s with
    | '+' :: t => t
    | _ => s
  match parse_integer s1 0 0 with
  | (res, rv, rest) =>
    if 2 ^ ULONG_BITS ≤ res then Except.error (-ERANGE)
    else if rv = 0 then Except.error (-EINVAL)
    else if rest = [] ∨ rest = [Char.ofNat 10] then Except.ok res
    else Except.error (-EINVAL)

/-- Decimal digits of a number, least significant first. -/
def decimal_rev : Nat → Nat → List Char
  | 0, _ => []
  | fuel + 1, k =>
    Char.ofNat (48 + k % 10) :: (if k / 10 = 0 then [] else decimal_rev fuel (k / 10))

/-- The decimal representation of a non-negative integer. -/
def decimal (k : Nat) : Name := (decimal_rev (k + 1) k).reverse

/-! ## Data model -/

/-- The permission classes named by the switch of
`get_derived_permission_new`. -/
inductive perm_t
  | PERM_INHERIT
  | PERM_PRE_ROOT
  | PERM_ROOT
  | PERM_ANDROID
  | PERM_ANDROID_DATA
  | PERM_ANDROID_OBB
  | PERM_ANDROID_MEDIA
  | PERM_ANDROID_PACKAGE
  | PERM_ANDROID_PACKAGE_CACHE
  deriving DecidableEq, Repr

open perm_t

/-- The derived state kept per inode; `top` is the identity of the inode it
points to. -/
structure sdcardfs_inode_info where
  perm : perm_t
  userid : Nat
  d_uid : Nat
  under_android : Bool
  under_cache : Bool
  under_obb : Bool
  top : Nat
  deriving DecidableEq, Repr

/-- An inode: its identity, its mode bits and its sdcardfs private part. -/
structure inode where
  i_ino : Nat
  i_mode : Nat
  info : sdcardfs_inode_info
  deriving DecidableEq, Repr

/-- Modelled from the spec: the `S_ISDIR` test of the kernel headers is not
part of the source file: the file-type bits of the mode say "directory". -/
def S_ISDIR (m : Nat) : Bool := (m &&& 0o170000) == 0o040000

/-- The external package-list collaborators used by the derivation. -/
structure packagelist where
  get_appid : Name → Nat
  is_excluded : Name → Nat → Bool
  multiuser_get_uid : Nat → Nat → Nat

/-- Modelled from the spec: `set_top` of sdcardfs.h is not part of the source
file; it makes `top` refer to the given inode. -/
def set_top (info : sdcardfs_inode_info) (top : Nat) : sdcardfs_inode_info :=
  { info with top := top }

/-! ## Derivation -/

/-- Copy derived state from parent inode. -/
def inherit_derived_state (parent child : inode) : inode :=
  let pi := parent.info
  let ci := child.info
  let ci := { ci with perm := PERM_INHERIT }
  let ci := { ci with userid := pi.userid }
  let ci := { ci with d_uid := pi.d_uid }
  let ci := { ci with under_android := pi.under_android }
  let ci := { ci with under_cache := pi.under_cache }
  let ci := { ci with under_obb := pi.under_obb }
  { child with info := set_top ci pi.top }

/-- Helper function for derived state. -/
def setup_derived_state (i : inode) (perm : perm_t) (userid : Nat) (uid : Nat)
    (under_android : Bool) (top : Nat) : inode :=
  let info := i.info
  let info := { info with perm := perm }
  let info := { info with userid := userid }
  let info := { info with d_uid := uid }
  let info := { info with under_android := under_android }
  let info := { info with under_cache := false }
  let info := { info with under_obb := false }
  { i with info := set_top info top }

/-- The derivation step. `parent` is `parent->d_inode`, `child` is
`dentry->d_inode` (a different inode), `name` is the caller-supplied
name. The result is the child inode after the call. -/
def get_derived_permission_new (pl : packagelist) (parent child : inode) (name : Name) :
    inode :=
  let parent_info := parent.info
  let child := inherit_derived_state parent child
  let info := child.info
  if !S_ISDIR child.i_mode then child
  else
    match parent_info.perm with
    | PERM_INHERIT => child
    | PERM_ANDROID_PACKAGE_CACHE => child
    | PERM_PRE_ROOT =>
      let info := { info with perm := PERM_ROOT }
      let info :=
        match kstrtoul name with
        | Except.error _ => { info with userid := 0 }
        | Except.ok user_num => { info with userid := user_num % 2 ^ USERID_BITS }
      { child with info := set_top info child.i_ino }
    | PERM_ROOT =>
      if qstr_case_eq name q_Android then
        let info := { info with perm := PERM_ANDROID }
        let info := { info with under_android := true }
        { child with info := set_top info child.i_ino }
      else child
    | PERM_ANDROID =>
      if qstr_case_eq name q_data then
        let info := { info with perm := PERM_ANDROID_DATA }
        { child with info := set_top info child.i_ino }
      else if qstr_case_eq name q_obb then
        let info := { info with perm := PERM_ANDROID_OBB }
        let info := { info with under_obb := true }
        { child with info := set_top info child.i_ino }
      else if qstr_case_eq name q_media then
        let info := { info with perm := PERM_ANDROID_MEDIA }
        { child with info := set_top info child.i_ino }
      else child
    | PERM_ANDROID_OBB | PERM_ANDROID_DATA | PERM_ANDROID_MEDIA =>
      let info := { info with perm := PERM_ANDROID_PACKAGE }
      let appid := pl.get_appid name
      let info :=
        if appid != 0 && !pl.is_excluded name parent_info.userid then
          { info with d_uid := pl.multiuser_get_uid parent_info.userid appid }
        else info
      { child with info := set_top info child.i_ino }
    | PERM_ANDROID_PACKAGE =>
      if qstr_case_eq name q_cache then
        let info := { info with perm := PERM_ANDROID_PACKAGE_CACHE }
        let info := { info with under_cache := true }
        { child with info := info }
      else child

/-- A chain of derivations from an ancestor down to a node: each step
derives the next node (given with the name used for it) from the node
derived before it. -/
def derive_chain (pl : packagelist) (ancestor : inode) : List (inode × Name) → inode
  | [] => ancestor
  | (child, name) :: rest =>
    derive_chain pl (get_derived_permission_new pl ancestor child name) rest

/-! ## The grammar table, in the spec's words -/

/-- The class table of the spec for a directory child. -/
def spec_class (parent_class : perm_t) (n : Name) : perm_t :=
  match parent_class with
  | PERM_INHERIT => PERM_INHERIT
  | PERM_ANDROID_PACKAGE_CACHE => PERM_INHERIT
  | PERM_PRE_ROOT => PERM_ROOT
  | PERM_ROOT => if eq_ignoring_case n "Android".toList then PERM_ANDROID else PERM_INHERIT
  | PERM_ANDROID =>
    if eq_ignoring_case n "data".toList then PERM_ANDROID_DATA
    else if eq_ignoring_case n "obb".toList then PERM_ANDROID_OBB
    else if eq_ignoring_case n "media".toList then PERM_ANDROID_MEDIA
    else PERM_INHERIT
  | PERM_ANDROID_DATA => PERM_ANDROID_PACKAGE
  | PERM_ANDROID_OBB => PERM_ANDROID_PACKAGE
  | PERM_ANDROID_MEDIA => PERM_ANDROID_PACKAGE
  | PERM_ANDROID_PACKAGE =>
    if eq_ignoring_case n "cache".toList then PERM_ANDROID_PACKAGE_CACHE else PERM_INHERIT

/-! ## OBB redirection predicates -/

/-- The mount options and configuration read by the predicates. -/
structure sdcardfs_sb_info where
  multiuser : Bool
  obbpath_s : Name

/-- Whether the dentry named `d_name` under the parent with state
`parent_info` must be grafted onto the base obbpath. -/
def need_graft_path (sbi : sdcardfs_sb_info) (parent_info : sdcardfs_inode_info)
    (d_name : Name) : Int :=
  let ret : Int := 0
  if parent_info.perm = PERM_ANDROID && qstr_case_eq d_name q_obb then
    if !(sbi.multiuser == false && parent_info.userid == 0) then 1 else ret
  else ret

/-- Whether the dentry named `d_name` under the parent with state
`parent_info` is the base obbpath itself. -/
def is_base_obbpath (sbi : sdcardfs_sb_info) (parent_info : sdcardfs_inode_info)
    (d_name : Name) : Int :=
  let ret : Int := 0
  if sbi.multiuser then
    if parent_info.perm = PERM_PRE_ROOT && qstr_case_eq d_name q_obb then 1 else ret
  else if parent_info.perm = PERM_ANDROID && qstr_case_eq d_name q_obb then 1
  else ret

/-- A lower path handle: the text `d_path` yields for it, whether its
dentry is unhashed, and the reference count of the object it pins. -/
structure path where
  d_path : Name
  d_unhashed : Bool
  refcount : Nat
  deriving DecidableEq, Repr

/-- The per-dentry redirect record; `none` stands for a path whose `dentry`
member is NULL. -/
structure sdcardfs_dentry_info where
  lock : Bool
  orig_path : Option path
  lower_path : Option path
  deriving DecidableEq, Repr

def spin_lock (di : sdcardfs_dentry_info) : sdcardfs_dentry_info :=
  { di with lock := true }

def spin_unlock (di : sdcardfs_dentry_info) : sdcardfs_dentry_info :=
  { di with lock := false }

def path_get (p : path) : path := { p with refcount := p.refcount + 1 }

def path_put (p : path) : path := { p with refcount := p.refcount - 1 }

/-- The staleness check. `kmalloc_ok` says whether the path buffer could be
allocated. Returns `ret` and the record after the call. -/
def is_obbpath_invalid (sbi : sdcardfs_sb_info) (kmalloc_ok : Bool)
    (di : sdcardfs_dentry_info) : Int × sdcardfs_dentry_info :=
  let ret : Int := 0
  let need_put := false
  let di := spin_lock di
  let (ret, need_put, di) :=
    match di.orig_path with
    | some _ =>
      match di.lower_path with
      | none => (1, need_put, di)
      | some lp =>
        let lp := path_get lp
        let di := { di with lower_path := some lp }
        let ret :=
          if !kmalloc_ok then 1
          else
            let obbpath_s := lp.d_path
            if lp.d_unhashed || !str_case_eq sbi.obbpath_s obbpath_s then 1 else ret
        (ret, true, di)
    | none => (ret, need_put, di)
  let di := spin_unlock di
  let di := if need_put then { di with lower_path := di.lower_path.map path_put } else di
  (ret, di)

/-! ## Example data used to instantiate the theorems -/

/-- A package list knowing one package, "com.example", with appid 42. -/
def pl_example : packagelist where
  get_appid := fun n => if n = "com.example".toList then 42 else 0
  is_excluded := fun _ _ => false
  multiuser_get_uid := fun u a => u * 100000 + a % 100000

/-- A directory inode with identity 1 carrying the given class and userid. -/
def parent_example (p : perm_t) (u : Nat) : inode :=
  { i_ino := 1, i_mode := 0o040771,
    info := { perm := p, userid := u, d_uid := 1000, under_android := false,
              under_cache := false, under_obb := false, top := 1 } }

/-- A fresh directory inode with identity 2. -/
def dir_example : inode :=
  { i_ino := 2, i_mode := 0o040771,
    info := { perm := PERM_INHERIT, userid := 0, d_uid := 0, under_android := false,
              under_cache := false, under_obb := false, top := 2 } }

/-- A fresh regular-file inode with identity 3. -/
def file_example : inode :=
  { i_ino := 3, i_mode := 0o100660,
    info := { perm := PERM_INHERIT, userid := 0, d_uid := 0, under_android := false,
              under_cache := false, under_obb := false, top := 3 } }

/-- A package list knowing one package, "com.foo", with appid 99. -/
def pl_foo : packagelist where
  get_appid := fun n => if n = "com.foo".toList then 99 else 0
  is_excluded := fun _ _ => false
  multiuser_get_uid := fun u a => u * 100000 + a % 100000

/-! ## Establishing the redirect -/

def LOOKUP_FOLLOW : Nat := 0x0001

def LOOKUP_DIRECTORY : Nat := 0x0002

def ENOENT : Int := 2

/-- Modelled from the spec: `sdcardfs_set_orig_path` of sdcardfs.h is not part
of the source file; it records the given path as the node's recoverable
original location, under the node's lock. -/
def sdcardfs_set_orig_path (di : sdcardfs_dentry_info) (orig_path : Option path) :
    sdcardfs_dentry_info :=
  let di := spin_lock di
  let di := { di with orig_path := orig_path }
  spin_unlock di

/-- Establishing the redirect. `kern_path` is the external path resolution:
given the configured root and the lookup flags it yields an error code and,
when that is 0, the resolved path. `lower_path` is the caller's variable.
Returns `err`, the per-node record and the caller's `lower_path` after the
call. -/
def setup_obb_dentry (sbi : sdcardfs_sb_info) (kern_path : Name → Nat → Int × path)
    (di : sdcardfs_dentry_info) (lower_path : Option path) :
    Int × sdcardfs_dentry_info × Option path :=
  let di := sdcardfs_set_orig_path di lower_path
  let resolved := kern_path sbi.obbpath_s (LOOKUP_FOLLOW ||| LOOKUP_DIRECTORY)
  let err := resolved.1
  let obbpath := resolved.2
  if err = 0 then (err, di, some obbpath)
  else (err, di, lower_path)

/-! ## Refreshing a node and a subtree -/

/-- A dentry as `update_derived_permission_lock` sees it: its name, the inode
it points to (`none` for a dentry without inode) and its `d_subdirs` list,
which that function carries along untouched. The subtree walk, where several
dentries may point to one inode, works on `dcache` and `icache` below. -/
inductive dentry where
  | mk (d_name : Name) (d_inode : Option inode) (d_subdirs : List dentry)
  deriving Repr

/-- The derivation step with the dentry's own stored name. -/
def get_derived_permission (pl : packagelist) (parent : inode) (d_name : Name)
    (d_inode : inode) : inode :=
  get_derived_permission_new pl parent d_inode d_name

/-- Modelled from the spec: `fix_derived_permission` of sdcardfs.h is not part
of the source file; it commits the derived state to the attributes of the
inode seen by the VFS (owner, group, permission bits). Of the modelled inode
only the permission bits of `i_mode` are concerned: they are replaced by the
permission bits `get_mode` computes from the derived state, while the
file-type bits, the identity and the derived state itself are kept. -/
def fix_derived_permission (get_mode : sdcardfs_inode_info → Nat) (i : inode) : inode :=
  { i with i_mode := (i.i_mode &&& 0o170000) ||| (get_mode i.info &&& 0o7777) }

/-- The main function for updating derived permission. `d_parent` is the
inode of the dentry's parent, or `none` when `IS_ROOT(dentry)`; `dentry` is
`none` for a NULL pointer. Returns the parent and the dentry after the
call. -/
def update_derived_permission_lock (pl : packagelist)
    (get_mode : sdcardfs_inode_info → Nat) (d_parent : Option inode)
    (d : Option dentry) : Option inode × Option dentry :=
  match d with
  | none => (d_parent, none)
  | some (dentry.mk d_name none d_subdirs) => (d_parent, some (dentry.mk d_name none d_subdirs))
  | some (dentry.mk d_name (some d_inode) d_subdirs) =>
    let d_inode :=
      match d_parent with
      | none => d_inode
      | some parent => get_derived_permission pl parent d_name d_inode
    (d_parent, some (dentry.mk d_name (some (fix_derived_permission get_mode d_inode)) d_subdirs))

/-! ## The subtree walk over shared inodes -/

/-- The inodes in memory: the contents found at each inode address. -/
abbrev icache := Nat → inode

/-- The inode at address `a`; `&info->vfs_inode` is that address. -/
def iload (mem : icache) (a : Nat) : inode := { mem a with i_ino := a }

/-- The memory with the contents at address `a` replaced. -/
def istore (mem : icache) (a : Nat) (i : inode) : icache :=
  fun k => if k = a then i else mem k

/-- A dentry of the dentry cache: its name, the address of its inode (`none`
when `d_inode` is NULL) and the dentries on its `d_subdirs` list. Several
dentries may hold the address of one inode. -/
inductive dcache where
  | mk (d_name : Name) (d_inode : Option Nat) (d_subdirs : List dcache)
  deriving Repr

/-- The derivation step on memory: `parent` and `a` are the addresses of
`parent->d_inode` and `dentry->d_inode`, the result is written at `a`. The
switch reads `parent_info->perm` after `inherit_derived_state` has written
the child, so when both addresses are the same inode it reads what was just
written there. -/
def get_derived_permission_mem (pl : packagelist) (parent a : Nat) (d_name : Name)
    (mem : icache) : icache :=
  let p := iload mem parent
  let c := iload mem a
  let p := if parent = a then inherit_derived_state p c else p
  istore mem a (get_derived_permission pl p d_name c)

/-- The touch-up of the inode at address `a`. -/
def fix_derived_permission_mem (get_mode : sdcardfs_inode_info → Nat) (a : Nat)
    (mem : icache) : icache :=
  istore mem a (fix_derived_permission get_mode (iload mem a))

mutual
/-- The loop of `get_derive_permissions_recursive` over the `d_subdirs` list of
a parent whose inode is at address `parent`, in list order; returns the
memory after the loop. -/
def get_derive_permissions_loop (pl : packagelist) (get_mode : sdcardfs_inode_info → Nat)
    (parent : Nat) : List dcache → icache → icache
  | [], mem => mem
  | d :: rest, mem =>
    get_derive_permissions_loop pl get_mode parent rest
      (get_derive_permissions_entry pl get_mode parent d mem)
/-- The loop body for one entry: a dentry with an inode has that inode
re-derived from the parent's inode and touched up, then its own subtree is
walked; a dentry without inode is skipped. -/
def get_derive_permissions_entry (pl : packagelist) (get_mode : sdcardfs_inode_info → Nat)
    (parent : Nat) : dcache → icache → icache
  | dcache.mk _ none _, mem => mem
  | dcache.mk d_name (some a) d_subdirs, mem =>
    let mem := get_derived_permission_mem pl parent a d_name mem
    let mem := fix_derived_permission_mem get_mode a mem
    get_derive_permissions_loop pl get_mode a d_subdirs mem
end

mutual
/-- The inode addresses held by the dentries of a list and by their
descendants, one entry per dentry. -/
def inode_addrs_list : List dcache → List Nat
  | [] => []
  | d :: rest => inode_addrs d ++ inode_addrs_list rest
/-- The inode addresses held by a dentry and its descendants, one entry per
dentry. -/
def inode_addrs : dcache → List Nat
  | dcache.mk _ i l => i.toList ++ inode_addrs_list l
end

mutual
/-- In the memory `mem`, every dentry of the list, and below it every
descendant reached through dentries with inodes, carries the state derived
from its parent's state, its own name and its own file type. -/
def labelled_list (pl : packagelist) (mem : icache) (parent : Nat) : List dcache → Prop
  | [] => True
  | d :: rest => labelled pl mem parent d ∧ labelled_list pl mem parent rest
/-- In the memory `mem`, the dentry, when it has an inode, carries the state
derived from the inode at `parent`, and so do its descendants from theirs. -/
def labelled (pl : packagelist) (mem : icache) (parent : Nat) : dcache → Prop
  | dcache.mk _ none _ => True
  | dcache.mk d_name (some a) d_subdirs =>
    (iload mem a).info =
      (get_derived_permission_new pl (iload mem parent) (iload mem a) d_name).info ∧
    labelled_list pl mem a d_subdirs
end

/-- The invariant of derived states. -/
def derived_invariant (s : sdcardfs_inode_info) : Prop :=
  ((s.perm = PERM_ANDROID ∨ s.perm = PERM_ANDROID_DATA ∨ s.perm = PERM_ANDROID_OBB ∨
      s.perm = PERM_ANDROID_MEDIA ∨ s.perm = PERM_ANDROID_PACKAGE ∨
      s.perm = PERM_ANDROID_PACKAGE_CACHE) → s.under_android = true) ∧
  (s.under_obb = true → s.under_android = true) ∧
  (s.under_cache = true → s.under_android = true) ∧
  (s.perm = PERM_ANDROID_OBB → s.under_obb = true) ∧
  (s.perm = PERM_ANDROID_PACKAGE_CACHE → s.under_cache = true)

/-! ## The calls made by the staleness check -/

/-- The calls of `is_obbpath_invalid` that take or give back a resource. -/
inductive obb_event
  | ev_spin_lock
  | ev_spin_unlock
  | ev_path_get
  | ev_path_put
  | ev_kmalloc
  | ev_kfree
  deriving DecidableEq, Repr

/-- The staleness check once more, recording in order the calls it makes on
the node's lock, on the active handle and on the path buffer, along the same
branches as `is_obbpath_invalid`. -/
def is_obbpath_invalid_trace (kmalloc_ok : Bool) (di : sdcardfs_dentry_info) :
    List obb_event :=
  let need_put := false
  let tr := [obb_event.ev_spin_lock]
  let (tr, need_put) :=
    match di.orig_path with
    | some _ =>
      match di.lower_path with
      | none => (tr, need_put)
      | some _ =>
        let tr := tr ++ [obb_event.ev_path_get]
        let tr :=
          if !kmalloc_ok then tr
          else tr ++ [obb_event.ev_kmalloc, obb_event.ev_kfree]
        (tr, true)
    | none => (tr, need_put)
  let tr := tr ++ [obb_event.ev_spin_unlock]
  if need_put then tr ++ [obb_event.ev_path_put] else tr

/-! ## Example trees -/

end Sdcardfs

namespace Sdcardfs

open perm_t

/-! ## Case-insensitive comparison -/

theorem str_n_case_eq_iff (a b : Name) (h : a.length = b.length) :
    str_n_case_eq a b b.length = true ↔ a.map tolower = b.map tolower := by
  induction a generalizing b with
  | nil =>
    cases b with
    | nil => simp [str_n_case_eq]
    | cons y ys => simp at h
  | cons x xs ih =>
    cases b with
    | nil => simp at h
    | cons y ys =>
      have h2 : xs.length = ys.length := by simpa using h
      simp [str_n_case_eq, ih ys h2]

theorem qstr_case_eq_iff (a b : Name) :
    qstr_case_eq a b = true ↔ eq_ignoring_case a b := by
  unfold qstr_case_eq eq_ignoring_case
  constructor
  · intro h
    simp only [Bool.and_eq_true, beq_iff_eq] at h
    exact ⟨h.1, (str_n_case_eq_iff a b h.1).1 h.2⟩
  · intro h
    simp only [Bool.and_eq_true, beq_iff_eq]
    exact ⟨h.1, (str_n_case_eq_iff a b h.1).2 h.2⟩

theorem eq_ignoring_case_iff_map (a b : Name) :
    eq_ignoring_case a b ↔ a.map tolower = b.map tolower := by
  constructor
  · exact fun h => h.2
  · intro h
    refine ⟨?_, h⟩
    have := congrArg List.length h
    simpa using this

theorem qstr_case_eq_congr (a a2 b : Name) (h : a.map tolower = a2.map tolower) :
    qstr_case_eq a2 b = qstr_case_eq a b := by
  rw [Bool.eq_iff_iff, qstr_case_eq_iff, qstr_case_eq_iff, eq_ignoring_case_iff_map,
    eq_ignoring_case_iff_map, h]

theorem qstr_case_eq_length (a b : Name) (h : qstr_case_eq a b = true) :
    a.length = b.length :=
  ((qstr_case_eq_iff a b).1 h).1

theorem qstr_case_eq_false_of_length (a b : Name) (h : a.length ≠ b.length) :
    qstr_case_eq a b = false := by
  cases hq : qstr_case_eq a b with
  | false => rfl
  | true => exact absurd (qstr_case_eq_length a b hq) h

theorem str_case_eq_iff (a b : Name) :
    str_case_eq a b = true ↔ a.map tolower = b.map tolower := by
  induction a generalizing b with
  | nil => cases b <;> simp [str_case_eq]
  | cons x xs ih => cases b <;> simp [str_case_eq, ih]

end Sdcardfs

namespace Sdcardfs

open perm_t

/-! ## The derivation step -/

theorem derived_class_dir (pl : packagelist) (P c : inode) (n : Name)
    (hdir : S_ISDIR c.i_mode = true) :
    (get_derived_permission_new pl P c n).info.perm = spec_class P.info.perm n := by
  cases hp : P.info.perm <;>
    simp only [get_derived_permission_new, inherit_derived_state, set_top, hdir, hp, spec_class,
      ← qstr_case_eq_iff, q_Android, q_data, q_obb, q_media, q_cache] <;>
    simp <;> (try split_ifs) <;> (try split) <;> simp_all

theorem no_match_ext_right (k k2 s : Name) (hs : s ≠ [])
    (h : k.length = k2.length ∨ (k2.map tolower).take k.length ≠ k.map tolower) :
    qstr_case_eq (k ++ s) k2 = false := by
  cases hq : qstr_case_eq (k ++ s) k2 with
  | false => rfl
  | true =>
    exfalso
    obtain ⟨hl, hm⟩ := (qstr_case_eq_iff _ _).1 hq
    rcases h with h | h
    · have : s.length = 0 := by simp at hl; omega
      exact hs (List.length_eq_zero.1 this)
    · apply h
      rw [← hm]
      simp

theorem no_match_ext_left (k k2 s : Name) (hs : s ≠ [])
    (h : k.length = k2.length ∨ (k2.map tolower).drop (k2.length - k.length) ≠ k.map tolower) :
    qstr_case_eq (s ++ k) k2 = false := by
  cases hq : qstr_case_eq (s ++ k) k2 with
  | false => rfl
  | true =>
    exfalso
    obtain ⟨hl, hm⟩ := (qstr_case_eq_iff _ _).1 hq
    rcases h with h | h
    · have : s.length = 0 := by simp at hl; omega
      exact hs (List.length_eq_zero.1 this)
    · apply h
      have hl2 : k2.length - k.length = (s.map tolower).length := by simp at hl ⊢; omega
      rw [← hm, hl2]
      simp

/-- The five keywords of the grammar. -/
theorem keyword_ext_no_match (k k2 s : Name) (hs : s ≠ [])
    (hk : k ∈ ["Android".toList, "data".toList, "obb".toList, "media".toList, "cache".toList])
    (hk2 : k2 ∈ ["Android".toList, "data".toList, "obb".toList, "media".toList,
      "cache".toList]) :
    ¬ eq_ignoring_case (k ++ s) k2 ∧ ¬ eq_ignoring_case (s ++ k) k2 := by
  rw [← qstr_case_eq_iff, ← qstr_case_eq_iff, Bool.not_eq_true, Bool.not_eq_true]
  simp only [List.mem_cons, List.mem_singleton, List.not_mem_nil, or_false] at hk hk2
  rcases hk with rfl | rfl | rfl | rfl | rfl <;>
    rcases hk2 with rfl | rfl | rfl | rfl | rfl <;>
    exact ⟨no_match_ext_right _ _ s hs (by decide), no_match_ext_left _ _ s hs (by decide)⟩

/-- C1: for a directory child the class written by `get_derived_permission_new`
is exactly the grammar table of the spec, name matches being case-insensitive
whole-component matches; names differing only in letter case give identical
child states under a Root, Android or AndroidPackage parent; and a name that
properly extends a keyword on either side (or, for the single-keyword rows,
has any other length than the keyword) gives class Inherit. -/
theorem get_derived_permission_new_class_table (pl : packagelist) (P c : inode) (n : Name)
    (hdir : S_ISDIR c.i_mode = true) :
    (get_derived_permission_new pl P c n).info.perm = spec_class P.info.perm n ∧
    (∀ n2 : Name, n.map tolower = n2.map tolower →
      (P.info.perm = PERM_ROOT ∨ P.info.perm = PERM_ANDROID ∨
        P.info.perm = PERM_ANDROID_PACKAGE) →
      get_derived_permission_new pl P c n2 = get_derived_permission_new pl P c n) ∧
    (∀ k s : Name, s ≠ [] →
      ((P.info.perm = PERM_ROOT ∧ k = "Android".toList) ∨
       (P.info.perm = PERM_ANDROID ∧
          (k = "data".toList ∨ k = "obb".toList ∨ k = "media".toList)) ∨
       (P.info.perm = PERM_ANDROID_PACKAGE ∧ k = "cache".toList)) →
      (get_derived_permission_new pl P c (k ++ s)).info.perm = PERM_INHERIT ∧
      (get_derived_permission_new pl P c (s ++ k)).info.perm = PERM_INHERIT) ∧
    ((P.info.perm = PERM_ROOT ∧ n.length ≠ 7) ∨
       (P.info.perm = PERM_ANDROID_PACKAGE ∧ n.length ≠ 5) →
      (get_derived_permission_new pl P c n).info.perm = PERM_INHERIT) := by
  refine ⟨derived_class_dir pl P c n hdir, ?_, ?_, ?_⟩
  · intro n2 hn hP
    have e1 := qstr_case_eq_congr n n2 q_Android hn
    have e2 := qstr_case_eq_congr n n2 q_data hn
    have e3 := qstr_case_eq_congr n n2 q_obb hn
    have e4 := qstr_case_eq_congr n n2 q_media hn
    have e5 := qstr_case_eq_congr n n2 q_cache hn
    rcases hP with hp | hp | hp <;>
      simp only [get_derived_permission_new, hp, e1, e2, e3, e4, e5]
  · intro k s hs hk
    rw [derived_class_dir pl P c _ hdir, derived_class_dir pl P c _ hdir]
    have hk5 : k ∈ ["Android".toList, "data".toList, "obb".toList, "media".toList,
        "cache".toList] := by
      rcases hk with ⟨_, rfl⟩ | ⟨_, rfl | rfl | rfl⟩ | ⟨_, rfl⟩ <;> simp
    have hA := keyword_ext_no_match k "Android".toList s hs hk5 (by simp)
    have hD := keyword_ext_no_match k "data".toList s hs hk5 (by simp)
    have hO := keyword_ext_no_match k "obb".toList s hs hk5 (by simp)
    have hM := keyword_ext_no_match k "media".toList s hs hk5 (by simp)
    have hC := keyword_ext_no_match k "cache".toList s hs hk5 (by simp)
    rcases hk with ⟨hp, _⟩ | ⟨hp, _⟩ | ⟨hp, _⟩ <;>
      simp only [hp, spec_class, if_neg hA.1, if_neg hA.2, if_neg hD.1, if_neg hD.2,
        if_neg hO.1, if_neg hO.2, if_neg hM.1, if_neg hM.2, if_neg hC.1, if_neg hC.2,
        and_self]
  · intro h
    rw [derived_class_dir pl P c _ hdir]
    rcases h with ⟨hp, hl⟩ | ⟨hp, hl⟩ <;>
      simp only [hp, spec_class, ← qstr_case_eq_iff] <;>
      rw [qstr_case_eq_false_of_length _ _ (by simpa using hl)] <;> simp

theorem get_derived_permission_new_class_table_witness :
    S_ISDIR dir_example.i_mode = true ∧
    (get_derived_permission_new pl_example (parent_example PERM_ANDROID 0) dir_example
      "OBB".toList).info.perm = PERM_ANDROID_OBB ∧
    (get_derived_permission_new pl_example (parent_example PERM_ROOT 0) dir_example
      "Android2".toList).info.perm = PERM_INHERIT :=
  ⟨by decide,
   by rw [(get_derived_permission_new_class_table pl_example (parent_example PERM_ANDROID 0)
        dir_example "OBB".toList (by decide)).1]; decide,
   by rw [(get_derived_permission_new_class_table pl_example (parent_example PERM_ROOT 0)
        dir_example "Android2".toList (by decide)).1]; decide⟩

/-- C2: when the child is not a directory, `get_derived_permission_new` leaves
it with class Inherit and with userid, d_uid, the three flags and top all
equal to the parent's, whatever the parent's class and whatever the name. -/
theorem get_derived_permission_new_file (pl : packagelist) (P c : inode) (n : Name)
    (hfile : S_ISDIR c.i_mode = false) :
    (get_derived_permission_new pl P c n).info =
      { perm := PERM_INHERIT, userid := P.info.userid, d_uid := P.info.d_uid,
        under_android := P.info.under_android, under_cache := P.info.under_cache,
        under_obb := P.info.under_obb, top := P.info.top } := by
  simp [get_derived_permission_new, inherit_derived_state, set_top, hfile]

theorem get_derived_permission_new_file_witness :
    S_ISDIR file_example.i_mode = false ∧
    (get_derived_permission_new pl_example (parent_example PERM_ANDROID 4) file_example
      "obb".toList).info =
      { perm := PERM_INHERIT, userid := 4, d_uid := 1000, under_android := false,
        under_cache := false, under_obb := false, top := 1 } :=
  ⟨by decide,
   get_derived_permission_new_file pl_example (parent_example PERM_ANDROID 4) file_example
     "obb".toList (by decide)⟩

/-- C3: under an AndroidData, AndroidObb or AndroidMedia parent, a directory
named `n` gets d_uid `multiuser_get_uid(P.userid, get_appid(n))` when
`get_appid(n)` is non-zero and `n` is not excluded for `P.userid`, and the
parent's d_uid otherwise; its userid is the parent's in both cases. -/
theorem get_derived_permission_new_package_uid (pl : packagelist) (P c : inode) (n : Name)
    (hP : P.info.perm = PERM_ANDROID_DATA ∨ P.info.perm = PERM_ANDROID_OBB ∨
      P.info.perm = PERM_ANDROID_MEDIA)
    (hdir : S_ISDIR c.i_mode = true) :
    (pl.get_appid n ≠ 0 ∧ pl.is_excluded n P.info.userid = false →
      (get_derived_permission_new pl P c n).info.d_uid =
        pl.multiuser_get_uid P.info.userid (pl.get_appid n)) ∧
    (pl.get_appid n = 0 ∨ pl.is_excluded n P.info.userid = true →
      (get_derived_permission_new pl P c n).info.d_uid = P.info.d_uid) ∧
    (get_derived_permission_new pl P c n).info.userid = P.info.userid := by
  rcases hP with hp | hp | hp <;>
    simp only [get_derived_permission_new, inherit_derived_state, set_top, hdir, hp] <;>
    (refine ⟨?_, ?_, ?_⟩) <;>
    (try intro h) <;> (try rcases h with h | h) <;> simp_all <;> split_ifs <;> simp_all

theorem get_derived_permission_new_package_uid_witness :
    (parent_example PERM_ANDROID_DATA 10).info.perm = PERM_ANDROID_DATA ∧
    S_ISDIR dir_example.i_mode = true ∧
    (get_derived_permission_new pl_example (parent_example PERM_ANDROID_DATA 10) dir_example
      "com.example".toList).info.d_uid = 1000042 ∧
    (get_derived_permission_new pl_example (parent_example PERM_ANDROID_DATA 10) dir_example
      "com.example".toList).info.userid = 10 :=
  ⟨rfl, by decide,
   (get_derived_permission_new_package_uid pl_example (parent_example PERM_ANDROID_DATA 10)
     dir_example "com.example".toList (Or.inl rfl) (by decide)).1 ⟨by decide, rfl⟩,
   (get_derived_permission_new_package_uid pl_example (parent_example PERM_ANDROID_DATA 10)
     dir_example "com.example".toList (Or.inl rfl) (by decide)).2.2⟩

/-! ## Integer parsing -/

theorem digit_char (d : Nat) (hd : d < 10) :
    ('0' ≤ Char.ofNat (48 + d) ∧ Char.ofNat (48 + d) ≤ '9') ∧
    (Char.ofNat (48 + d)).toNat - 48 = d ∧ Char.ofNat (48 + d) ≠ '+' := by
  interval_cases d <;> decide

theorem parse_integer_digit (d : Nat) (hd : d < 10) (rest : Name) (res rv : Nat) :
    parse_integer (Char.ofNat (48 + d) :: rest) res rv =
      parse_integer rest (res * 10 + d) (rv + 1) := by
  obtain ⟨h1, h2, _⟩ := digit_char d hd
  rw [parse_integer, if_pos h1, h2]

theorem parse_integer_decimal_rev (fuel : Nat) :
    ∀ k : Nat, k < fuel → ∀ rest : Name, ∃ len : Nat, 0 < len ∧
      parse_integer ((decimal_rev fuel k).reverse ++ rest) 0 0 = parse_integer rest k len := by
  induction fuel with
  | zero => intro k hk; omega
  | succ fuel ih =>
    intro k hk rest
    have hd : k % 10 < 10 := Nat.mod_lt _ (by decide)
    by_cases h0 : k / 10 = 0
    · refine ⟨1, by decide, ?_⟩
      have hk10 : k % 10 = k := by omega
      simp only [decimal_rev, h0, if_true, List.reverse_cons, List.reverse_nil, List.nil_append,
        List.singleton_append]
      rw [parse_integer_digit _ hd, hk10]
      simp
    · have hlt : k / 10 < fuel := by omega
      obtain ⟨len, hlen, hparse⟩ := ih (k / 10) hlt (Char.ofNat (48 + k % 10) :: rest)
      refine ⟨len + 1, by omega, ?_⟩
      simp only [decimal_rev, h0, if_false, List.reverse_cons, List.append_assoc,
        List.singleton_append]
      rw [hparse, parse_integer_digit _ hd]
      congr 1
      omega

theorem decimal_rev_no_plus (fuel k : Nat) : ∀ c ∈ decimal_rev fuel k, c ≠ '+' := by
  induction fuel generalizing k with
  | zero => intro c hc; simp [decimal_rev] at hc
  | succ fuel ih =>
    intro c hc
    have hd : k % 10 < 10 := Nat.mod_lt _ (by decide)
    simp only [decimal_rev, List.mem_cons] at hc
    rcases hc with rfl | hc
    · exact (digit_char _ hd).2.2
    · by_cases h0 : k / 10 = 0
      · simp [h0] at hc
      · simp only [h0, if_false] at hc
        exact ih _ c hc

theorem kstrtoul_decimal (k : Nat) (hk : k < 2 ^ ULONG_BITS) :
    kstrtoul (decimal k) = Except.ok k := by
  obtain ⟨len, hlen, hparse⟩ := parse_integer_decimal_rev (k + 1) k (Nat.lt_succ_self k) []
  rw [List.append_nil] at hparse
  have hplus : ∀ c ∈ decimal k, c ≠ '+' := by
    intro c hc
    exact decimal_rev_no_plus (k + 1) k c (by simpa [decimal] using hc)
  have hs1 : (match decimal k with
    | '+' :: t => t
    | _ => decimal k) = decimal k := by
    split
    · rename_i t heq
      exact absurd rfl (hplus '+' (by rw [heq]; simp))
    · rfl
  unfold kstrtoul
  simp only [hs1]
  unfold decimal
  rw [hparse]
  simp only [parse_integer]
  rw [if_neg (by omega), if_neg (by omega)]
  simp

/-! ## Per-user roots under the pre-root -/

theorem pre_root_dir (pl : packagelist) (P c : inode) (n : Name)
    (hP : P.info.perm = PERM_PRE_ROOT) (hdir : S_ISDIR c.i_mode = true) :
    (get_derived_permission_new pl P c n).info.perm = PERM_ROOT ∧
    (∀ k : Nat, kstrtoul n = Except.ok k →
      (get_derived_permission_new pl P c n).info.userid = k % 2 ^ USERID_BITS) ∧
    (∀ e : Int, kstrtoul n = Except.error e →
      (get_derived_permission_new pl P c n).info.userid = 0) := by
  simp only [get_derived_permission_new, inherit_derived_state, set_top, hdir, hP]
  refine ⟨?_, ?_, ?_⟩
  · simp only [Bool.not_true, Bool.false_eq_true, if_false]
    split <;> rfl
  · intro k hk
    simp [hk]
  · intro e he
    simp [he]

/-- C4, as the code has it: under a PreRoot parent a directory gets class
Root; when `kstrtoul` parses its name as `k` and `k` fits the 32-bit
`userid_t`, its userid is `k` (so the decimal representation of every `k`
below 2^32 gives userid `k`); when the name is not parseable its userid
is 0. -/
theorem pre_root_userid_in_range (pl : packagelist) (P c : inode) (n : Name)
    (hP : P.info.perm = PERM_PRE_ROOT) (hdir : S_ISDIR c.i_mode = true) :
    (get_derived_permission_new pl P c n).info.perm = PERM_ROOT ∧
    (∀ k : Nat, kstrtoul n = Except.ok k → k < 2 ^ USERID_BITS →
      (get_derived_permission_new pl P c n).info.userid = k) ∧
    (∀ k : Nat, n = decimal k → k < 2 ^ USERID_BITS →
      (get_derived_permission_new pl P c n).info.userid = k) ∧
    (∀ e : Int, kstrtoul n = Except.error e →
      (get_derived_permission_new pl P c n).info.userid = 0) := by
  obtain ⟨h1, h2, h3⟩ := pre_root_dir pl P c n hP hdir
  refine ⟨h1, ?_, ?_, h3⟩
  · intro k hk hlt
    rw [h2 k hk, Nat.mod_eq_of_lt hlt]
  · intro k hn hlt
    have hlt64 : k < 2 ^ ULONG_BITS :=
      lt_of_lt_of_le hlt (Nat.pow_le_pow_right (by decide) (by decide))
    rw [h2 k (by rw [hn]; exact kstrtoul_decimal k hlt64), Nat.mod_eq_of_lt hlt]

theorem pre_root_userid_in_range_witness :
    (parent_example PERM_PRE_ROOT 0).info.perm = PERM_PRE_ROOT ∧
    S_ISDIR dir_example.i_mode = true ∧
    "7".toList = decimal 7 ∧
    (get_derived_permission_new pl_example (parent_example PERM_PRE_ROOT 0) dir_example
      "7".toList).info.userid = 7 ∧
    kstrtoul "abc".toList = Except.error (-EINVAL) ∧
    (get_derived_permission_new pl_example (parent_example PERM_PRE_ROOT 0) dir_example
      "abc".toList).info.perm = PERM_ROOT ∧
    (get_derived_permission_new pl_example (parent_example PERM_PRE_ROOT 0) dir_example
      "abc".toList).info.userid = 0 :=
  ⟨rfl, by decide, by decide,
   (pre_root_userid_in_range pl_example (parent_example PERM_PRE_ROOT 0) dir_example
     "7".toList rfl (by decide)).2.2.1 7 (by decide) (by decide),
   by rfl,
   (pre_root_userid_in_range pl_example (parent_example PERM_PRE_ROOT 0) dir_example
     "abc".toList rfl (by decide)).1,
   (pre_root_userid_in_range pl_example (parent_example PERM_PRE_ROOT 0) dir_example
     "abc".toList rfl (by decide)).2.2.2 (-EINVAL) (by rfl)⟩

/-- C4 as stated fails: the directory name "4294967297" under a PreRoot parent is the decimal
representation of 4294967297 and `kstrtoul` parses it as that number, yet the
userid stored into the 32-bit `userid_t` field is 1, not 4294967297. -/
theorem pre_root_userid_truncated :
    (parent_example PERM_PRE_ROOT 0).info.perm = PERM_PRE_ROOT ∧
    S_ISDIR dir_example.i_mode = true ∧
    "4294967297".toList = decimal 4294967297 ∧
    kstrtoul "4294967297".toList = Except.ok 4294967297 ∧
    (get_derived_permission_new pl_example (parent_example PERM_PRE_ROOT 0) dir_example
      "4294967297".toList).info.userid = 1 ∧
    (get_derived_permission_new pl_example (parent_example PERM_PRE_ROOT 0) dir_example
      "4294967297".toList).info.userid ≠ 4294967297 :=
  ⟨rfl, by decide, by decide, by rfl, by rfl, by decide⟩

/-! ## The top ancestor -/

/-- C5, as the code has it: for a directory child, when one of the rows
PreRoot->Root, Root->Android, Android->AndroidData/AndroidObb/AndroidMedia or
AndroidData/AndroidObb/AndroidMedia->AndroidPackage fires, `top` is the child
itself; when no rule fires (class Inherit) or the row
AndroidPackage->AndroidPackageCache fires, `top` is the parent's `top`. -/
theorem get_derived_permission_new_top (pl : packagelist) (P c : inode) (n : Name)
    (hdir : S_ISDIR c.i_mode = true) :
    ((get_derived_permission_new pl P c n).info.perm = PERM_ROOT ∨
      (get_derived_permission_new pl P c n).info.perm = PERM_ANDROID ∨
      (get_derived_permission_new pl P c n).info.perm = PERM_ANDROID_DATA ∨
      (get_derived_permission_new pl P c n).info.perm = PERM_ANDROID_OBB ∨
      (get_derived_permission_new pl P c n).info.perm = PERM_ANDROID_MEDIA ∨
      (get_derived_permission_new pl P c n).info.perm = PERM_ANDROID_PACKAGE →
      (get_derived_permission_new pl P c n).info.top = c.i_ino) ∧
    ((get_derived_permission_new pl P c n).info.perm = PERM_INHERIT ∨
      (get_derived_permission_new pl P c n).info.perm = PERM_ANDROID_PACKAGE_CACHE →
      (get_derived_permission_new pl P c n).info.top = P.info.top) ∧
    (get_derived_permission_new pl P c n).info.perm ≠ PERM_PRE_ROOT := by
  cases hp : P.info.perm <;>
    simp only [get_derived_permission_new, inherit_derived_state, set_top, hdir, hp] <;>
    simp <;> (try split_ifs) <;> (try split) <;> simp_all

theorem get_derived_permission_new_top_witness :
    S_ISDIR dir_example.i_mode = true ∧
    (get_derived_permission_new pl_example (parent_example PERM_ROOT 0) dir_example
      "Android".toList).info.top = dir_example.i_ino ∧
    (get_derived_permission_new pl_example (parent_example PERM_ANDROID_PACKAGE 0) dir_example
      "cache".toList).info.top = (parent_example PERM_ANDROID_PACKAGE 0).info.top :=
  ⟨by decide,
   (get_derived_permission_new_top pl_example (parent_example PERM_ROOT 0) dir_example
     "Android".toList (by decide)).1 (by decide),
   (get_derived_permission_new_top pl_example (parent_example PERM_ANDROID_PACKAGE 0)
     dir_example "cache".toList (by decide)).2.1 (by decide)⟩

/-- C5 as stated fails: a directory named "cache" under an AndroidPackage
parent gets class AndroidPackageCache (a rule fires, the class is not
Inherit), yet its `top` is the parent's `top`, not the child itself. -/
theorem cache_rule_keeps_parent_top :
    S_ISDIR dir_example.i_mode = true ∧
    (get_derived_permission_new pl_example (parent_example PERM_ANDROID_PACKAGE 0) dir_example
      "cache".toList).info.perm = PERM_ANDROID_PACKAGE_CACHE ∧
    (get_derived_permission_new pl_example (parent_example PERM_ANDROID_PACKAGE 0) dir_example
      "cache".toList).info.perm ≠ PERM_INHERIT ∧
    (get_derived_permission_new pl_example (parent_example PERM_ANDROID_PACKAGE 0) dir_example
      "cache".toList).info.top = (parent_example PERM_ANDROID_PACKAGE 0).info.top ∧
    (get_derived_permission_new pl_example (parent_example PERM_ANDROID_PACKAGE 0) dir_example
      "cache".toList).info.top ≠ dir_example.i_ino := by
  decide

/-! ## Sticky flags -/

theorem flags_step (pl : packagelist) (P c : inode) (n : Name) :
    (P.info.under_obb = true → (get_derived_permission_new pl P c n).info.under_obb = true) ∧
    (P.info.under_android = true →
      (get_derived_permission_new pl P c n).info.under_android = true) ∧
    (P.info.under_cache = true →
      (get_derived_permission_new pl P c n).info.under_cache = true) := by
  cases hd : S_ISDIR c.i_mode <;> cases hp : P.info.perm <;>
    simp only [get_derived_permission_new, inherit_derived_state, set_top, hd, hp] <;>
    simp <;> (try split_ifs) <;> (try split) <;> simp_all

theorem flags_chain (pl : packagelist) (steps : List (inode × Name)) :
    ∀ P : inode,
    (P.info.under_obb = true → (derive_chain pl P steps).info.under_obb = true) ∧
    (P.info.under_android = true → (derive_chain pl P steps).info.under_android = true) ∧
    (P.info.under_cache = true → (derive_chain pl P steps).info.under_cache = true) := by
  induction steps with
  | nil => intro P; simp [derive_chain]
  | cons st rest ih =>
    intro P
    obtain ⟨c, n⟩ := st
    obtain ⟨s1, s2, s3⟩ := flags_step pl P c n
    obtain ⟨r1, r2, r3⟩ := ih (get_derived_permission_new pl P c n)
    exact ⟨fun h => r1 (s1 h), fun h => r2 (s2 h), fun h => r3 (s3 h)⟩

/-- C6: the sticky flags are monotone under derivation: for every parent,
name and file type, a flag among under_obb, under_android, under_cache that is
true on the parent is true on the derived child; and along any chain of
derivations a flag true at an ancestor is true at every descendant. -/
theorem sticky_flags_monotone (pl : packagelist) (P c : inode) (n : Name)
    (steps : List (inode × Name)) :
    ((P.info.under_obb = true → (get_derived_permission_new pl P c n).info.under_obb = true) ∧
     (P.info.under_android = true →
       (get_derived_permission_new pl P c n).info.under_android = true) ∧
     (P.info.under_cache = true →
       (get_derived_permission_new pl P c n).info.under_cache = true)) ∧
    ((P.info.under_obb = true → (derive_chain pl P steps).info.under_obb = true) ∧
     (P.info.under_android = true → (derive_chain pl P steps).info.under_android = true) ∧
     (P.info.under_cache = true → (derive_chain pl P steps).info.under_cache = true)) :=
  ⟨flags_step pl P c n, flags_chain pl steps P⟩

theorem sticky_flags_monotone_witness :
    (get_derived_permission_new pl_example (parent_example PERM_ANDROID 0) dir_example
      "obb".toList).info.under_obb = true ∧
    (derive_chain pl_example
      (get_derived_permission_new pl_example (parent_example PERM_ANDROID 0) dir_example
        "obb".toList)
      [(dir_example, "com.example".toList), (file_example, "main.obb".toList)]).info.under_obb
      = true :=
  ⟨by decide,
   (sticky_flags_monotone pl_example
     (get_derived_permission_new pl_example (parent_example PERM_ANDROID 0) dir_example
       "obb".toList)
     dir_example "com.example".toList
     [(dir_example, "com.example".toList), (file_example, "main.obb".toList)]).2.1
     (by decide)⟩

/-! ## OBB redirection predicates -/

/-- C7: `is_base_obbpath` returns 1 exactly when the name equals "obb"
ignoring case and either multiuser is enabled and the parent's class is
PreRoot, or multiuser is disabled and the parent's class is Android; it
returns 0 on every other input; and it depends on the parent only through
its class (not on any userid). -/
theorem is_base_obbpath_iff (sbi : sdcardfs_sb_info) (parent_info : sdcardfs_inode_info)
    (d_name : Name) :
    (is_base_obbpath sbi parent_info d_name = 1 ↔
      eq_ignoring_case d_name "obb".toList ∧
      ((sbi.multiuser = true ∧ parent_info.perm = PERM_PRE_ROOT) ∨
       (sbi.multiuser = false ∧ parent_info.perm = PERM_ANDROID))) ∧
    (¬ (eq_ignoring_case d_name "obb".toList ∧
        ((sbi.multiuser = true ∧ parent_info.perm = PERM_PRE_ROOT) ∨
         (sbi.multiuser = false ∧ parent_info.perm = PERM_ANDROID))) →
      is_base_obbpath sbi parent_info d_name = 0) ∧
    (∀ other : sdcardfs_inode_info, other.perm = parent_info.perm →
      is_base_obbpath sbi other d_name = is_base_obbpath sbi parent_info d_name) := by
  have hq : qstr_case_eq d_name q_obb = true ↔ eq_ignoring_case d_name "obb".toList :=
    qstr_case_eq_iff d_name q_obb
  refine ⟨?_, ?_, ?_⟩
  · rw [← hq]
    cases hm : sbi.multiuser <;> cases hp : parent_info.perm <;>
      cases hn : qstr_case_eq d_name q_obb <;>
      simp [is_base_obbpath, hm, hp, hn]
  · rw [← hq]
    cases hm : sbi.multiuser <;> cases hp : parent_info.perm <;>
      cases hn : qstr_case_eq d_name q_obb <;>
      simp [is_base_obbpath, hm, hp, hn]
  · intro other ho
    simp only [is_base_obbpath, ho]

theorem is_base_obbpath_iff_witness :
    ¬ (eq_ignoring_case "obb".toList "obb".toList ∧
        (((⟨true, "/data/media/obb".toList⟩ : sdcardfs_sb_info).multiuser = true ∧
            (parent_example PERM_ANDROID 0).info.perm = PERM_PRE_ROOT) ∨
         ((⟨true, "/data/media/obb".toList⟩ : sdcardfs_sb_info).multiuser = false ∧
            (parent_example PERM_ANDROID 0).info.perm = PERM_ANDROID))) ∧
    is_base_obbpath ⟨true, "/data/media/obb".toList⟩ (parent_example PERM_ANDROID 0).info
      "obb".toList = 0 :=
  ⟨by decide,
   (is_base_obbpath_iff ⟨true, "/data/media/obb".toList⟩ (parent_example PERM_ANDROID 0).info
     "obb".toList).2.1 (by decide)⟩

/-- C8: `need_graft_path` returns 1 exactly when the parent's class is
Android, the name equals "obb" ignoring case, and it is not the case that
multiuser is disabled and the userid recorded on the parent is 0; it returns 0
otherwise. The obb child inherits that userid. In the single-user layout
userid 0 gives 0 (while `is_base_obbpath` gives 1) and userid 5 gives 1. -/
theorem need_graft_path_iff (sbi : sdcardfs_sb_info) (parent_info : sdcardfs_inode_info)
    (d_name : Name) (pl : packagelist) (parent child : inode) :
    (need_graft_path sbi parent_info d_name = 1 ↔
      parent_info.perm = PERM_ANDROID ∧ eq_ignoring_case d_name "obb".toList ∧
      ¬ (sbi.multiuser = false ∧ parent_info.userid = 0)) ∧
    (need_graft_path sbi parent_info d_name = 1 ∨ need_graft_path sbi parent_info d_name = 0) ∧
    (parent.info.perm = PERM_ANDROID →
      (get_derived_permission_new pl parent child d_name).info.userid = parent.info.userid) ∧
    (need_graft_path ⟨false, sbi.obbpath_s⟩ (parent_example PERM_ANDROID 0).info "obb".toList = 0 ∧
     is_base_obbpath ⟨false, sbi.obbpath_s⟩ (parent_example PERM_ANDROID 0).info "obb".toList = 1 ∧
     need_graft_path ⟨false, sbi.obbpath_s⟩ (parent_example PERM_ANDROID 5).info "obb".toList = 1)
    := by
  have hq : qstr_case_eq d_name q_obb = true ↔ eq_ignoring_case d_name "obb".toList :=
    qstr_case_eq_iff d_name q_obb
  refine ⟨?_, ?_, ?_, ?_, ?_, ?_⟩
  · rw [← hq]
    cases hm : sbi.multiuser <;> cases hp : parent_info.perm <;>
      cases hn : qstr_case_eq d_name q_obb <;>
      simp [need_graft_path, hm, hp, hn]
  · cases hm : sbi.multiuser <;> cases hp : parent_info.perm <;>
      cases hn : qstr_case_eq d_name q_obb <;>
      simp [need_graft_path, hm, hp, hn]
    exact (Nat.eq_zero_or_pos parent_info.userid).symm.imp (fun h => Nat.pos_iff_ne_zero.1 h) id
  · intro hp
    cases hd : S_ISDIR child.i_mode
    · simp [get_derived_permission_new, inherit_derived_state, set_top, hd]
    · simp only [get_derived_permission_new, inherit_derived_state, set_top, hd, hp]
      simp only [Bool.not_true, Bool.false_eq_true, if_false]
      split_ifs <;> rfl
  · rfl
  · rfl
  · rfl

theorem need_graft_path_iff_witness :
    (parent_example PERM_ANDROID 5).info.perm = PERM_ANDROID ∧
    (get_derived_permission_new pl_example (parent_example PERM_ANDROID 5) dir_example
      "obb".toList).info.userid = 5 ∧
    need_graft_path ⟨false, "/data/media/obb".toList⟩ (parent_example PERM_ANDROID 5).info
      "obb".toList = 1 :=
  ⟨rfl,
   (need_graft_path_iff ⟨false, "/data/media/obb".toList⟩ (parent_example PERM_ANDROID 5).info
     "obb".toList pl_example (parent_example PERM_ANDROID 5) dir_example).2.2.1 rfl,
   (need_graft_path_iff ⟨false, "/data/media/obb".toList⟩ (parent_example PERM_ANDROID 5).info
     "obb".toList pl_example (parent_example PERM_ANDROID 5) dir_example).2.2.2.2.2⟩

/-- C9, as the code has it: with multiuser disabled, whenever
`need_graft_path` returns 1, `is_base_obbpath` returns 1 on the same inputs;
with multiuser enabled, whenever `need_graft_path` returns 1,
`is_base_obbpath` returns 0. -/
theorem need_graft_path_vs_is_base_obbpath (sbi : sdcardfs_sb_info)
    (parent_info : sdcardfs_inode_info) (d_name : Name)
    (hg : need_graft_path sbi parent_info d_name = 1) :
    (sbi.multiuser = false → is_base_obbpath sbi parent_info d_name = 1) ∧
    (sbi.multiuser = true → is_base_obbpath sbi parent_info d_name = 0) := by
  revert hg
  cases hm : sbi.multiuser <;> cases hp : parent_info.perm <;>
    cases hn : qstr_case_eq d_name q_obb <;>
    simp [need_graft_path, is_base_obbpath, hm, hp, hn]

theorem need_graft_path_vs_is_base_obbpath_witness :
    need_graft_path ⟨false, "/data/media/obb".toList⟩ (parent_example PERM_ANDROID 5).info
      "obb".toList = 1 ∧
    is_base_obbpath ⟨false, "/data/media/obb".toList⟩ (parent_example PERM_ANDROID 5).info
      "obb".toList = 1 :=
  ⟨rfl,
   (need_graft_path_vs_is_base_obbpath ⟨false, "/data/media/obb".toList⟩
     (parent_example PERM_ANDROID 5).info "obb".toList rfl).1 rfl⟩

/-- C9 as stated fails: with multiuser enabled, an Android parent and the
name "obb", `need_graft_path` returns 1 while `is_base_obbpath` returns 0 on
the same inputs. -/
theorem need_graft_path_not_narrower :
    need_graft_path ⟨true, "/data/media/obb".toList⟩ (parent_example PERM_ANDROID 0).info
      "obb".toList = 1 ∧
    is_base_obbpath ⟨true, "/data/media/obb".toList⟩ (parent_example PERM_ANDROID 0).info
      "obb".toList = 0 ∧
    ¬ (need_graft_path ⟨true, "/data/media/obb".toList⟩ (parent_example PERM_ANDROID 0).info
        "obb".toList = 1 →
       is_base_obbpath ⟨true, "/data/media/obb".toList⟩ (parent_example PERM_ANDROID 0).info
        "obb".toList = 1) := by
  decide

/-! ## Staleness of an established redirect -/

/-- C10, as the code has it: when the redirect metadata (orig_path) and the
active handle (lower_path) are both present and the path text of the active
handle does not equal the configured OBB root string ignoring case, then
`is_obbpath_invalid` returns 1, whether or not the path buffer could be
allocated. -/
theorem is_obbpath_invalid_of_mismatch (sbi : sdcardfs_sb_info) (kmalloc_ok : Bool)
    (di : sdcardfs_dentry_info) (orig lower : path)
    (horig : di.orig_path = some orig) (hlower : di.lower_path = some lower)
    (hne : lower.d_path.map tolower ≠ sbi.obbpath_s.map tolower) :
    (is_obbpath_invalid sbi kmalloc_ok di).1 = 1 := by
  have hs : str_case_eq sbi.obbpath_s lower.d_path = false := by
    cases h : str_case_eq sbi.obbpath_s lower.d_path with
    | false => rfl
    | true => exact absurd ((str_case_eq_iff _ _).1 h).symm hne
  cases kmalloc_ok <;>
    simp [is_obbpath_invalid, spin_lock, spin_unlock, path_get, horig, hlower, hs]

theorem is_obbpath_invalid_of_mismatch_witness :
    (⟨false, some ⟨"/storage/emulated/obb".toList, false, 1⟩,
        some ⟨"/mnt/other".toList, false, 1⟩⟩ : sdcardfs_dentry_info).orig_path =
      some ⟨"/storage/emulated/obb".toList, false, 1⟩ ∧
    "/mnt/other".toList.map tolower ≠ "/data/media/obb".toList.map tolower ∧
    (is_obbpath_invalid ⟨false, "/data/media/obb".toList⟩ true
      ⟨false, some ⟨"/storage/emulated/obb".toList, false, 1⟩,
        some ⟨"/mnt/other".toList, false, 1⟩⟩).1 = 1 :=
  ⟨rfl, by decide,
   is_obbpath_invalid_of_mismatch ⟨false, "/data/media/obb".toList⟩ true
     ⟨false, some ⟨"/storage/emulated/obb".toList, false, 1⟩,
       some ⟨"/mnt/other".toList, false, 1⟩⟩
     ⟨"/storage/emulated/obb".toList, false, 1⟩ ⟨"/mnt/other".toList, false, 1⟩
     rfl rfl (by decide)⟩

/-- C10 as stated fails: with redirect metadata and active handle present, a
hashed active handle whose path text "/data/media/OBB" is not equal to the
configured root "/data/media/obb" (they differ in letter case) makes
`is_obbpath_invalid` return 0. -/
theorem is_obbpath_invalid_ignores_case :
    "/data/media/OBB".toList ≠ "/data/media/obb".toList ∧
    (is_obbpath_invalid ⟨false, "/data/media/obb".toList⟩ true
      ⟨false, some ⟨"/storage/emulated/obb".toList, false, 1⟩,
        some ⟨"/data/media/OBB".toList, false, 1⟩⟩).1 = 0 := by
  decide

/-! ## Establishing the redirect -/

/-- C11: `setup_obb_dentry` has exactly two outcomes, decided by the
resolution of the configured OBB root: when `kern_path` succeeds it returns 0,
the recorded original location (orig_path) is the `lower_path` passed in and
the caller's `lower_path` becomes the resolved OBB root; when `kern_path`
fails with code `e` it returns `e`, which is not 0, and the caller's
`lower_path` is exactly the value passed in. -/
theorem setup_obb_dentry_outcomes (sbi : sdcardfs_sb_info)
    (kern_path : Name → Nat → Int × path) (di : sdcardfs_dentry_info)
    (lower_path : Option path) :
    ((kern_path sbi.obbpath_s (LOOKUP_FOLLOW ||| LOOKUP_DIRECTORY)).1 = 0 →
      (setup_obb_dentry sbi kern_path di lower_path).1 = 0 ∧
      (setup_obb_dentry sbi kern_path di lower_path).2.1.orig_path = lower_path ∧
      (setup_obb_dentry sbi kern_path di lower_path).2.2 =
        some (kern_path sbi.obbpath_s (LOOKUP_FOLLOW ||| LOOKUP_DIRECTORY)).2) ∧
    (∀ e : Int, (kern_path sbi.obbpath_s (LOOKUP_FOLLOW ||| LOOKUP_DIRECTORY)).1 = e →
      e ≠ 0 →
      (setup_obb_dentry sbi kern_path di lower_path).1 = e ∧
      (setup_obb_dentry sbi kern_path di lower_path).1 ≠ 0 ∧
      (setup_obb_dentry sbi kern_path di lower_path).2.2 = lower_path) := by
  constructor
  · intro h
    simp [setup_obb_dentry, sdcardfs_set_orig_path, spin_lock, spin_unlock, h]
  · intro e he hne
    subst he
    simp [setup_obb_dentry, hne]

theorem setup_obb_dentry_outcomes_witness :
    ((fun (_ : Name) (_ : Nat) => ((0 : Int), (⟨"/data/media/obb".toList, false, 1⟩ : path)))
        "/data/media/obb".toList (LOOKUP_FOLLOW ||| LOOKUP_DIRECTORY)).1 = 0 ∧
    (setup_obb_dentry ⟨false, "/data/media/obb".toList⟩
      (fun _ _ => (0, ⟨"/data/media/obb".toList, false, 1⟩))
      ⟨false, none, none⟩ (some ⟨"/data/media/0/Android/obb".toList, false, 1⟩)).2.2 =
      some ⟨"/data/media/obb".toList, false, 1⟩ ∧
    (setup_obb_dentry ⟨false, "/data/media/obb".toList⟩
      (fun _ _ => (-ENOENT, ⟨[], false, 0⟩))
      ⟨false, none, none⟩ (some ⟨"/data/media/0/Android/obb".toList, false, 1⟩)).1 =
      -ENOENT :=
  ⟨rfl,
   ((setup_obb_dentry_outcomes ⟨false, "/data/media/obb".toList⟩
      (fun _ _ => (0, ⟨"/data/media/obb".toList, false, 1⟩))
      ⟨false, none, none⟩ (some ⟨"/data/media/0/Android/obb".toList, false, 1⟩)).1 rfl).2.2,
   ((setup_obb_dentry_outcomes ⟨false, "/data/media/obb".toList⟩
      (fun _ _ => (-ENOENT, ⟨[], false, 0⟩))
      ⟨false, none, none⟩ (some ⟨"/data/media/0/Android/obb".toList, false, 1⟩)).2
      (-ENOENT) rfl (by decide)).1⟩

/-- C12, as the code has it: when `setup_obb_dentry` returns an error, the
caller's `lower_path` is identical to its value before the call and the
node's active handle (the lower_path of its record) is untouched, while the
recorded original location (orig_path) has been set to the `lower_path`
passed in and the node's lock is released. -/
theorem setup_obb_dentry_on_error (sbi : sdcardfs_sb_info)
    (kern_path : Name → Nat → Int × path) (di : sdcardfs_dentry_info)
    (lower_path : Option path)
    (herr : (setup_obb_dentry sbi kern_path di lower_path).1 ≠ 0) :
    (setup_obb_dentry sbi kern_path di lower_path).2.2 = lower_path ∧
    (setup_obb_dentry sbi kern_path di lower_path).2.1.lower_path = di.lower_path ∧
    (setup_obb_dentry sbi kern_path di lower_path).2.1.orig_path = lower_path ∧
    (setup_obb_dentry sbi kern_path di lower_path).2.1.lock = false := by
  have hk : (kern_path sbi.obbpath_s (LOOKUP_FOLLOW ||| LOOKUP_DIRECTORY)).1 ≠ 0 := by
    intro h
    apply herr
    simp [setup_obb_dentry, h]
  simp [setup_obb_dentry, sdcardfs_set_orig_path, spin_lock, spin_unlock, hk]

theorem setup_obb_dentry_on_error_witness :
    (setup_obb_dentry ⟨false, "/data/media/obb".toList⟩
      (fun _ _ => (-ENOENT, ⟨[], false, 0⟩))
      ⟨false, none, none⟩ (some ⟨"/data/media/0/Android/obb".toList, false, 1⟩)).1 ≠ 0 ∧
    (setup_obb_dentry ⟨false, "/data/media/obb".toList⟩
      (fun _ _ => (-ENOENT, ⟨[], false, 0⟩))
      ⟨false, none, none⟩ (some ⟨"/data/media/0/Android/obb".toList, false, 1⟩)).2.2 =
      some ⟨"/data/media/0/Android/obb".toList, false, 1⟩ :=
  ⟨by decide,
   (setup_obb_dentry_on_error ⟨false, "/data/media/obb".toList⟩
      (fun _ _ => (-ENOENT, ⟨[], false, 0⟩))
      ⟨false, none, none⟩ (some ⟨"/data/media/0/Android/obb".toList, false, 1⟩)
      (by decide)).1⟩

/-- C12 as stated fails: with `kern_path` failing with -ENOENT,
`setup_obb_dentry` returns that error, yet the node's record is not what it
was before the call: its orig_path, empty before, now holds the `lower_path`
passed in. -/
theorem setup_obb_dentry_error_sets_orig_path :
    (setup_obb_dentry ⟨false, "/data/media/obb".toList⟩
      (fun _ _ => (-ENOENT, ⟨[], false, 0⟩))
      ⟨false, none, none⟩ (some ⟨"/data/media/0/Android/obb".toList, false, 1⟩)).1 =
      -ENOENT ∧
    (setup_obb_dentry ⟨false, "/data/media/obb".toList⟩
      (fun _ _ => (-ENOENT, ⟨[], false, 0⟩))
      ⟨false, none, none⟩ (some ⟨"/data/media/0/Android/obb".toList, false, 1⟩)).1 ≠ 0 ∧
    (setup_obb_dentry ⟨false, "/data/media/obb".toList⟩
      (fun _ _ => (-ENOENT, ⟨[], false, 0⟩))
      ⟨false, none, none⟩ (some ⟨"/data/media/0/Android/obb".toList, false, 1⟩)).2.1.orig_path =
      some ⟨"/data/media/0/Android/obb".toList, false, 1⟩ ∧
    (setup_obb_dentry ⟨false, "/data/media/obb".toList⟩
      (fun _ _ => (-ENOENT, ⟨[], false, 0⟩))
      ⟨false, none, none⟩ (some ⟨"/data/media/0/Android/obb".toList, false, 1⟩)).2.1 ≠
      (⟨false, none, none⟩ : sdcardfs_dentry_info) := by
  decide

/-! ## Refreshing a node and a subtree -/

theorem S_ISDIR_fix (m g : Nat) :
    S_ISDIR ((m &&& 0o170000) ||| (g &&& 0o7777)) = S_ISDIR m := by
  have key : ((m &&& 0o170000) ||| (g &&& 0o7777)) &&& 0o170000 = m &&& 0o170000 := by
    apply Nat.eq_of_testBit_eq
    intro j
    simp only [Nat.testBit_and, Nat.testBit_or]
    have h : (0o170000 &&& 0o7777 : Nat) = 0 := by decide
    have hj := congrArg (fun z => Nat.testBit z j) h
    simp only [Nat.testBit_and, Nat.zero_testBit] at hj
    revert hj
    cases m.testBit j <;> cases Nat.testBit 0o170000 j <;> cases Nat.testBit 0o7777 j <;> simp
  unfold S_ISDIR
  rw [key]

theorem fix_derived_permission_keeps (get_mode : sdcardfs_inode_info → Nat) (i : inode) :
    (fix_derived_permission get_mode i).info = i.info ∧
    (fix_derived_permission get_mode i).i_ino = i.i_ino ∧
    S_ISDIR (fix_derived_permission get_mode i).i_mode = S_ISDIR i.i_mode :=
  ⟨rfl, rfl, S_ISDIR_fix _ _⟩

theorem derived_keeps_identity (pl : packagelist) (P c : inode) (n : Name) :
    (get_derived_permission_new pl P c n).i_ino = c.i_ino ∧
    (get_derived_permission_new pl P c n).i_mode = c.i_mode := by
  cases hd : S_ISDIR c.i_mode <;> cases hp : P.info.perm <;>
    simp only [get_derived_permission_new, inherit_derived_state, set_top, hd, hp] <;>
    simp <;> split_ifs <;> simp

theorem derived_info_congr (pl : packagelist) (P c c2 : inode) (n : Name)
    (hino : c2.i_ino = c.i_ino) (hdir : S_ISDIR c2.i_mode = S_ISDIR c.i_mode) :
    (get_derived_permission_new pl P c2 n).info = (get_derived_permission_new pl P c n).info := by
  cases hd : S_ISDIR c.i_mode <;> cases hp : P.info.perm <;>
    simp only [get_derived_permission_new, inherit_derived_state, set_top, hdir, hino, hd, hp] <;>
    simp <;> split_ifs <;> simp

theorem refreshed_inode_labelled (pl : packagelist) (get_mode : sdcardfs_inode_info → Nat)
    (P c : inode) (n : Name) :
    (fix_derived_permission get_mode (get_derived_permission pl P n c)).info =
      (get_derived_permission_new pl P
        (fix_derived_permission get_mode (get_derived_permission pl P n c)) n).info := by
  obtain ⟨h1, h2, h3⟩ :=
    fix_derived_permission_keeps get_mode (get_derived_permission pl P n c)
  obtain ⟨k1, k2⟩ := derived_keeps_identity pl P c n
  rw [derived_info_congr pl P c _ n (by rw [h2]; exact k1)
    (by rw [h3]; unfold get_derived_permission; rw [k2]), h1]
  rfl

/-- C13: `update_derived_permission_lock` leaves the derived state of the
filesystem super-root as it was; changes nothing for a NULL dentry or a dentry
without inode; and gives every other node the state derived from the current
state of its parent, its own stored name and its own file type, the parent
being unchanged. -/
theorem update_derived_permission_lock_spec (pl : packagelist)
    (get_mode : sdcardfs_inode_info → Nat) (d_parent : Option inode) (d_name : Name)
    (d_inode : inode) (d_subdirs : List dentry) :
    (∃ i2 : inode,
      update_derived_permission_lock pl get_mode none
          (some (dentry.mk d_name (some d_inode) d_subdirs)) =
        (none, some (dentry.mk d_name (some i2) d_subdirs)) ∧
      i2.info = d_inode.info) ∧
    update_derived_permission_lock pl get_mode d_parent none = (d_parent, none) ∧
    update_derived_permission_lock pl get_mode d_parent
        (some (dentry.mk d_name none d_subdirs)) =
      (d_parent, some (dentry.mk d_name none d_subdirs)) ∧
    (∀ parent : inode, ∃ i2 : inode,
      update_derived_permission_lock pl get_mode (some parent)
          (some (dentry.mk d_name (some d_inode) d_subdirs)) =
        (some parent, some (dentry.mk d_name (some i2) d_subdirs)) ∧
      i2.info = (get_derived_permission_new pl parent d_inode d_name).info) := by
  refine ⟨⟨fix_derived_permission get_mode d_inode, rfl, rfl⟩, rfl, rfl, ?_⟩
  intro parent
  exact ⟨fix_derived_permission get_mode (get_derived_permission pl parent d_name d_inode),
    rfl, rfl⟩

/-! ## The subtree walk over shared inodes -/

theorem istore_same (mem : icache) (a : Nat) (i : inode) : istore mem a i a = i := by
  simp [istore]

theorem istore_other (mem : icache) (a : Nat) (i : inode) (k : Nat) (h : k ≠ a) :
    istore mem a i k = mem k := by
  simp [istore, h]

theorem iload_congr (m1 m2 : icache) (k : Nat) (h : m1 k = m2 k) : iload m1 k = iload m2 k := by
  simp [iload, h]

theorem inode_set_ino (x : inode) (a : Nat) (h : x.i_ino = a) : { x with i_ino := a } = x := by
  cases x
  simp only at h
  subst h
  rfl

theorem entry_step_other (pl : packagelist) (get_mode : sdcardfs_inode_info → Nat)
    (parent a : Nat) (n : Name) (mem : icache) (k : Nat) (h : k ≠ a) :
    fix_derived_permission_mem get_mode a (get_derived_permission_mem pl parent a n mem) k =
      mem k := by
  simp [fix_derived_permission_mem, get_derived_permission_mem, istore, h]

theorem iload_istore_same (mem : icache) (a : Nat) (x : inode) (h : x.i_ino = a) :
    iload (istore mem a x) a = x := by
  unfold iload
  rw [istore_same]
  exact inode_set_ino x a h

theorem entry_step_at (pl : packagelist) (get_mode : sdcardfs_inode_info → Nat)
    (parent a : Nat) (n : Name) (mem : icache) :
    fix_derived_permission_mem get_mode a (get_derived_permission_mem pl parent a n mem) a =
      fix_derived_permission get_mode
        (get_derived_permission pl
          (if parent = a then inherit_derived_state (iload mem parent) (iload mem a)
            else iload mem parent) n (iload mem a)) := by
  have hino : (get_derived_permission pl
      (if parent = a then inherit_derived_state (iload mem parent) (iload mem a)
        else iload mem parent) n (iload mem a)).i_ino = a :=
    (derived_keeps_identity pl _ (iload mem a) n).1
  unfold fix_derived_permission_mem
  rw [istore_same]
  unfold get_derived_permission_mem
  rw [iload_istore_same _ a _ hino]

theorem entry_step_type (pl : packagelist) (get_mode : sdcardfs_inode_info → Nat)
    (parent a : Nat) (n : Name) (mem : icache) (k : Nat) :
    S_ISDIR (fix_derived_permission_mem get_mode a
        (get_derived_permission_mem pl parent a n mem) k).i_mode =
      S_ISDIR (mem k).i_mode := by
  by_cases h : k = a
  · subst h
    rw [entry_step_at, (fix_derived_permission_keeps get_mode _).2.2]
    unfold get_derived_permission
    rw [(derived_keeps_identity pl _ (iload mem k) n).2]
    rfl
  · rw [entry_step_other pl get_mode parent a n mem k h]

theorem entry_step_det (pl : packagelist) (get_mode : sdcardfs_inode_info → Nat)
    (parent a : Nat) (n : Name) (S : Nat → Prop) (m1 m2 : icache)
    (hp : S parent) (ha : S a) (hagree : ∀ k, S k → m1 k = m2 k) (k : Nat) (hk : S k) :
    fix_derived_permission_mem get_mode a (get_derived_permission_mem pl parent a n m1) k =
      fix_derived_permission_mem get_mode a (get_derived_permission_mem pl parent a n m2) k := by
  by_cases h : k = a
  · subst h
    rw [entry_step_at, entry_step_at, iload_congr m1 m2 parent (hagree parent hp),
      iload_congr m1 m2 k (hagree k ha)]
  · rw [entry_step_other pl get_mode parent a n m1 k h,
      entry_step_other pl get_mode parent a n m2 k h]
    exact hagree k hk

mutual
theorem loop_frame (pl : packagelist) (get_mode : sdcardfs_inode_info → Nat) :
    ∀ (l : List dcache) (parent : Nat) (mem : icache) (k : Nat), k ∉ inode_addrs_list l →
      get_derive_permissions_loop pl get_mode parent l mem k = mem k
  | [], _, _, _, _ => by simp [get_derive_permissions_loop]
  | d :: rest, parent, mem, k, h => by
    simp only [inode_addrs_list, List.mem_append, not_or] at h
    simp only [get_derive_permissions_loop]
    rw [loop_frame pl get_mode rest parent _ k h.2, entry_frame pl get_mode d parent mem k h.1]
theorem entry_frame (pl : packagelist) (get_mode : sdcardfs_inode_info → Nat) :
    ∀ (d : dcache) (parent : Nat) (mem : icache) (k : Nat), k ∉ inode_addrs d →
      get_derive_permissions_entry pl get_mode parent d mem k = mem k
  | dcache.mk _ none _, _, _, _, _ => by simp [get_derive_permissions_entry]
  | dcache.mk n (some a) l, parent, mem, k, h => by
    simp only [inode_addrs, Option.toList, List.singleton_append, List.mem_cons, not_or] at h
    simp only [get_derive_permissions_entry]
    rw [loop_frame pl get_mode l a _ k h.2, entry_step_other pl get_mode parent a n mem k h.1]
end

mutual
theorem loop_keeps_type (pl : packagelist) (get_mode : sdcardfs_inode_info → Nat) :
    ∀ (l : List dcache) (parent : Nat) (mem : icache) (k : Nat),
      S_ISDIR (get_derive_permissions_loop pl get_mode parent l mem k).i_mode =
        S_ISDIR (mem k).i_mode
  | [], _, _, _ => by simp [get_derive_permissions_loop]
  | d :: rest, parent, mem, k => by
    simp only [get_derive_permissions_loop]
    rw [loop_keeps_type pl get_mode rest parent _ k, entry_keeps_type pl get_mode d parent mem k]
theorem entry_keeps_type (pl : packagelist) (get_mode : sdcardfs_inode_info → Nat) :
    ∀ (d : dcache) (parent : Nat) (mem : icache) (k : Nat),
      S_ISDIR (get_derive_permissions_entry pl get_mode parent d mem k).i_mode =
        S_ISDIR (mem k).i_mode
  | dcache.mk _ none _, _, _, _ => by simp [get_derive_permissions_entry]
  | dcache.mk n (some a) l, parent, mem, k => by
    simp only [get_derive_permissions_entry]
    rw [loop_keeps_type pl get_mode l a _ k, entry_step_type pl get_mode parent a n mem k]
end

mutual
theorem loop_det (pl : packagelist) (get_mode : sdcardfs_inode_info → Nat) (S : Nat → Prop) :
    ∀ (l : List dcache) (parent : Nat) (m1 m2 : icache), S parent →
      (∀ a ∈ inode_addrs_list l, S a) → (∀ k, S k → m1 k = m2 k) → ∀ k, S k →
      get_derive_permissions_loop pl get_mode parent l m1 k =
        get_derive_permissions_loop pl get_mode parent l m2 k
  | [], _, _, _, _, _, hagree, k, hk => by
    simpa [get_derive_permissions_loop] using hagree k hk
  | d :: rest, parent, m1, m2, hp, hall, hagree, k, hk => by
    simp only [get_derive_permissions_loop]
    have hd : ∀ a ∈ inode_addrs d, S a := fun a ha =>
      hall a (by simp only [inode_addrs_list, List.mem_append]; exact Or.inl ha)
    have hr : ∀ a ∈ inode_addrs_list rest, S a := fun a ha =>
      hall a (by simp only [inode_addrs_list, List.mem_append]; exact Or.inr ha)
    exact loop_det pl get_mode S rest parent _ _ hp hr
      (entry_det pl get_mode S d parent m1 m2 hp hd hagree) k hk
theorem entry_det (pl : packagelist) (get_mode : sdcardfs_inode_info → Nat) (S : Nat → Prop) :
    ∀ (d : dcache) (parent : Nat) (m1 m2 : icache), S parent →
      (∀ a ∈ inode_addrs d, S a) → (∀ k, S k → m1 k = m2 k) → ∀ k, S k →
      get_derive_permissions_entry pl get_mode parent d m1 k =
        get_derive_permissions_entry pl get_mode parent d m2 k
  | dcache.mk _ none _, _, _, _, _, _, hagree, k, hk => by
    simpa [get_derive_permissions_entry] using hagree k hk
  | dcache.mk n (some a) l, parent, m1, m2, hp, hall, hagree, k, hk => by
    simp only [get_derive_permissions_entry]
    have ha : S a := hall a (by simp [inode_addrs])
    have hl : ∀ b ∈ inode_addrs_list l, S b := fun b hb => hall b (by simp [inode_addrs, hb])
    exact loop_det pl get_mode S l a _ _ ha hl
      (entry_step_det pl get_mode parent a n S m1 m2 hp ha hagree) k hk
end

mutual
theorem labelled_list_congr (pl : packagelist) (m1 m2 : icache) :
    ∀ (l : List dcache) (parent : Nat),
      (∀ k ∈ parent :: inode_addrs_list l, m1 k = m2 k) →
      labelled_list pl m1 parent l → labelled_list pl m2 parent l
  | [], _, _, _ => by simp [labelled_list]
  | d :: rest, parent, hagree, h => by
    simp only [labelled_list] at h ⊢
    refine ⟨labelled_congr pl m1 m2 d parent ?_ h.1,
      labelled_list_congr pl m1 m2 rest parent ?_ h.2⟩
    · intro k hk
      apply hagree k
      simp only [inode_addrs_list, List.mem_cons, List.mem_append] at hk ⊢
      tauto
    · intro k hk
      apply hagree k
      simp only [inode_addrs_list, List.mem_cons, List.mem_append] at hk ⊢
      tauto
theorem labelled_congr (pl : packagelist) (m1 m2 : icache) :
    ∀ (d : dcache) (parent : Nat),
      (∀ k ∈ parent :: inode_addrs d, m1 k = m2 k) →
      labelled pl m1 parent d → labelled pl m2 parent d
  | dcache.mk _ none _, _, _, _ => by simp [labelled]
  | dcache.mk n (some a) l, parent, hagree, h => by
    simp only [labelled] at h ⊢
    have hp : m1 parent = m2 parent := hagree parent (by simp)
    have ha : m1 a = m2 a := hagree a (by simp [inode_addrs])
    refine ⟨?_, labelled_list_congr pl m1 m2 l a ?_ h.2⟩
    · rw [← iload_congr m1 m2 a ha, ← iload_congr m1 m2 parent hp]
      exact h.1
    · intro k hk
      apply hagree k
      simp only [inode_addrs, Option.toList, List.singleton_append, List.mem_cons] at hk ⊢
      tauto
end

mutual
theorem loop_labelled (pl : packagelist) (get_mode : sdcardfs_inode_info → Nat) :
    ∀ (l : List dcache) (parent : Nat) (mem : icache),
      (parent :: inode_addrs_list l).Nodup →
      labelled_list pl (get_derive_permissions_loop pl get_mode parent l mem) parent l
  | [], _, _, _ => by simp [labelled_list]
  | d :: rest, parent, mem, hN => by
    simp only [inode_addrs_list, List.nodup_cons, List.mem_append, not_or,
      List.nodup_append] at hN
    obtain ⟨⟨hpd, hpr⟩, hd, hr, hdisj⟩ := hN
    simp only [get_derive_permissions_loop, labelled_list]
    refine ⟨?_, loop_labelled pl get_mode rest parent _ (List.nodup_cons.2 ⟨hpr, hr⟩)⟩
    apply labelled_congr pl (get_derive_permissions_entry pl get_mode parent d mem) _ d parent
    · intro k hk
      symm
      apply loop_frame
      rcases List.mem_cons.1 hk with rfl | hk
      · exact hpr
      · exact fun hkr => hdisj hk hkr
    · exact entry_labelled pl get_mode d parent mem (List.nodup_cons.2 ⟨hpd, hd⟩)
theorem entry_labelled (pl : packagelist) (get_mode : sdcardfs_inode_info → Nat) :
    ∀ (d : dcache) (parent : Nat) (mem : icache),
      (parent :: inode_addrs d).Nodup →
      labelled pl (get_derive_permissions_entry pl get_mode parent d mem) parent d
  | dcache.mk _ none _, _, _, _ => by simp [labelled]
  | dcache.mk n (some a) l, parent, mem, hN => by
    simp only [inode_addrs, Option.toList, List.singleton_append, List.nodup_cons,
      List.mem_cons, not_or] at hN
    obtain ⟨⟨hpa, hpl⟩, hal, hl⟩ := hN
    simp only [get_derive_permissions_entry, labelled]
    refine ⟨?_, loop_labelled pl get_mode l a _ (List.nodup_cons.2 ⟨hal, hl⟩)⟩
    have e1 : get_derive_permissions_loop pl get_mode a l
        (fix_derived_permission_mem get_mode a
          (get_derived_permission_mem pl parent a n mem)) a =
        fix_derived_permission get_mode
          (get_derived_permission pl (iload mem parent) n (iload mem a)) := by
      rw [loop_frame pl get_mode l a _ a hal, entry_step_at, if_neg hpa]
    have e2 : get_derive_permissions_loop pl get_mode a l
        (fix_derived_permission_mem get_mode a
          (get_derived_permission_mem pl parent a n mem)) parent = mem parent := by
      rw [loop_frame pl get_mode l a _ parent hpl,
        entry_step_other pl get_mode parent a n mem parent hpa]
    have hino : (fix_derived_permission get_mode
        (get_derived_permission pl (iload mem parent) n (iload mem a))).i_ino = a :=
      (derived_keeps_identity pl _ (iload mem a) n).1
    rw [iload_congr _ mem parent e2]
    have e3 : iload (get_derive_permissions_loop pl get_mode a l
        (fix_derived_permission_mem get_mode a
          (get_derived_permission_mem pl parent a n mem))) a =
        fix_derived_permission get_mode
          (get_derived_permission pl (iload mem parent) n (iload mem a)) := by
      rw [← iload_istore_same mem a _ hino]
      apply iload_congr
      rw [e1, istore_same]
    rw [e3]
    exact refreshed_inode_labelled pl get_mode (iload mem parent) (iload mem a) n
end

theorem step_root_android (pl : packagelist) (P c : inode) (n : Name)
    (hP : P.info.perm = PERM_ROOT) (hd : S_ISDIR c.i_mode = true)
    (hn : qstr_case_eq n q_Android = true) :
    (get_derived_permission_new pl P c n).info.perm = PERM_ANDROID ∧
    (get_derived_permission_new pl P c n).info.userid = P.info.userid ∧
    (get_derived_permission_new pl P c n).info.under_android = true := by
  simp only [get_derived_permission_new, inherit_derived_state, set_top, hd, hP, hn]
  simp

theorem step_android_data (pl : packagelist) (P c : inode) (n : Name)
    (hP : P.info.perm = PERM_ANDROID) (hd : S_ISDIR c.i_mode = true)
    (hn : qstr_case_eq n q_data = true) :
    (get_derived_permission_new pl P c n).info.perm = PERM_ANDROID_DATA ∧
    (get_derived_permission_new pl P c n).info.userid = P.info.userid ∧
    (get_derived_permission_new pl P c n).info.under_android = P.info.under_android := by
  simp only [get_derived_permission_new, inherit_derived_state, set_top, hd, hP, hn]
  simp

theorem step_data_package (pl : packagelist) (P c : inode) (n : Name)
    (hP : P.info.perm = PERM_ANDROID_DATA) (hd : S_ISDIR c.i_mode = true) :
    (get_derived_permission_new pl P c n).info.perm = PERM_ANDROID_PACKAGE ∧
    (get_derived_permission_new pl P c n).info.under_android = P.info.under_android ∧
    (∀ a : Nat, a ≠ 0 → pl.get_appid n = a → pl.is_excluded n P.info.userid = false →
      (get_derived_permission_new pl P c n).info.d_uid =
        pl.multiuser_get_uid P.info.userid a) := by
  simp only [get_derived_permission_new, inherit_derived_state, set_top, hd, hP]
  refine ⟨?_, ?_, ?_⟩
  · simp only [Bool.not_true, Bool.false_eq_true, if_false]
    split_ifs <;> rfl
  · simp only [Bool.not_true, Bool.false_eq_true, if_false]
    split_ifs <;> rfl
  · intro a ha hp hx
    subst hp
    simp [ha, hx]

theorem step_package_cache (pl : packagelist) (P c : inode) (n : Name)
    (hP : P.info.perm = PERM_ANDROID_PACKAGE) (hd : S_ISDIR c.i_mode = true)
    (hn : qstr_case_eq n q_cache = true) :
    (get_derived_permission_new pl P c n).info.perm = PERM_ANDROID_PACKAGE_CACHE ∧
    (get_derived_permission_new pl P c n).info.under_cache = true ∧
    (get_derived_permission_new pl P c n).info.under_android = P.info.under_android ∧
    (get_derived_permission_new pl P c n).info.d_uid = P.info.d_uid := by
  simp only [get_derived_permission_new, inherit_derived_state, set_top, hd, hP, hn]
  simp

/-- C16: starting from a Root parent with userid `u` and deriving directories
named "Android", "data", `p` and "cache" in succession, where `get_appid p`
is the non-zero `a` and `p` is not excluded for `u`, gives the classes
Android, AndroidData, AndroidPackage and AndroidPackageCache; under_android is
true on all four; the package node has d_uid `multiuser_get_uid u a`; and
the cache node has under_cache true and the package node's d_uid. -/
theorem derive_package_chain (pl : packagelist) (P c1 c2 c3 c4 : inode) (u a : Nat)
    (p : Name) (hP : P.info.perm = PERM_ROOT) (hu : P.info.userid = u)
    (h1 : S_ISDIR c1.i_mode = true) (h2 : S_ISDIR c2.i_mode = true)
    (h3 : S_ISDIR c3.i_mode = true) (h4 : S_ISDIR c4.i_mode = true)
    (ha : a ≠ 0) (hp : pl.get_appid p = a) (hx : pl.is_excluded p u = false) :
    (derive_chain pl P [(c1, "Android".toList)]).info.perm = PERM_ANDROID ∧
    (derive_chain pl P [(c1, "Android".toList), (c2, "data".toList)]).info.perm =
      PERM_ANDROID_DATA ∧
    (derive_chain pl P [(c1, "Android".toList), (c2, "data".toList), (c3, p)]).info.perm =
      PERM_ANDROID_PACKAGE ∧
    (derive_chain pl P [(c1, "Android".toList), (c2, "data".toList), (c3, p),
      (c4, "cache".toList)]).info.perm = PERM_ANDROID_PACKAGE_CACHE ∧
    (derive_chain pl P [(c1, "Android".toList)]).info.under_android = true ∧
    (derive_chain pl P [(c1, "Android".toList), (c2, "data".toList)]).info.under_android =
      true ∧
    (derive_chain pl P [(c1, "Android".toList), (c2, "data".toList),
      (c3, p)]).info.under_android = true ∧
    (derive_chain pl P [(c1, "Android".toList), (c2, "data".toList), (c3, p),
      (c4, "cache".toList)]).info.under_android = true ∧
    (derive_chain pl P [(c1, "Android".toList), (c2, "data".toList), (c3, p)]).info.d_uid =
      pl.multiuser_get_uid u a ∧
    (derive_chain pl P [(c1, "Android".toList), (c2, "data".toList), (c3, p),
      (c4, "cache".toList)]).info.under_cache = true ∧
    (derive_chain pl P [(c1, "Android".toList), (c2, "data".toList), (c3, p),
      (c4, "cache".toList)]).info.d_uid =
      (derive_chain pl P [(c1, "Android".toList), (c2, "data".toList), (c3, p)]).info.d_uid := by
  obtain ⟨A1, A2, A3⟩ := step_root_android pl P c1 "Android".toList hP h1 (by decide)
  obtain ⟨D1, D2, D3⟩ := step_android_data pl
    (get_derived_permission_new pl P c1 "Android".toList) c2 "data".toList A1 h2 (by decide)
  obtain ⟨K1, K2, K3⟩ := step_data_package pl
    (get_derived_permission_new pl (get_derived_permission_new pl P c1 "Android".toList) c2
      "data".toList) c3 p D1 h3
  obtain ⟨C1, C2, C3, C4⟩ := step_package_cache pl
    (get_derived_permission_new pl
      (get_derived_permission_new pl (get_derived_permission_new pl P c1 "Android".toList) c2
        "data".toList) c3 p) c4 "cache".toList K1 h4 (by decide)
  simp only [derive_chain]
  refine ⟨A1, D1, K1, C1, A3, ?_, ?_, ?_, ?_, C2, C4⟩
  · rw [D3, A3]
  · rw [K2, D3, A3]
  · rw [C3, K2, D3, A3]
  · rw [D2, A2, hu] at K3
    exact K3 a ha hp hx

theorem derive_package_chain_witness :
    (parent_example PERM_ROOT 0).info.perm = PERM_ROOT ∧
    pl_foo.get_appid "com.foo".toList = 99 ∧
    (derive_chain pl_foo (parent_example PERM_ROOT 0)
      [(dir_example, "Android".toList), (dir_example, "data".toList),
       (dir_example, "com.foo".toList)]).info.d_uid = pl_foo.multiuser_get_uid 0 99 :=
  ⟨rfl, by decide,
   (derive_package_chain pl_foo (parent_example PERM_ROOT 0) dir_example dir_example
     dir_example dir_example 0 99 "com.foo".toList rfl rfl (by decide) (by decide)
     (by decide) (by decide) (by decide) (by decide) rfl).2.2.2.2.2.2.2.2.1⟩

/-! ## The staleness check -/

/-- C17: `is_obbpath_invalid` is total and its result is characterised
exactly: it returns 0 whenever orig_path is absent, whatever lower_path and
the configured root are; when orig_path is present it returns 1 exactly when
lower_path is absent, or lower_path is present and the path buffer cannot be
allocated, or its dentry is unhashed, or its path text does not match the
configured OBB root under `str_case_eq`; and it returns 0 otherwise. -/
theorem is_obbpath_invalid_iff (sbi : sdcardfs_sb_info) (kmalloc_ok : Bool)
    (di : sdcardfs_dentry_info) :
    (di.orig_path = none → (is_obbpath_invalid sbi kmalloc_ok di).1 = 0) ∧
    (di.orig_path ≠ none →
      ((is_obbpath_invalid sbi kmalloc_ok di).1 = 1 ↔
        di.lower_path = none ∨
        ∃ lp : path, di.lower_path = some lp ∧
          (kmalloc_ok = false ∨ lp.d_unhashed = true ∨
            str_case_eq sbi.obbpath_s lp.d_path = false))) ∧
    ((is_obbpath_invalid sbi kmalloc_ok di).1 = 0 ∨
      (is_obbpath_invalid sbi kmalloc_ok di).1 = 1) := by
  obtain ⟨lock, orig, lower⟩ := di
  cases orig with
  | none => simp [is_obbpath_invalid, spin_lock, spin_unlock]
  | some o =>
    cases lower with
    | none => simp [is_obbpath_invalid, spin_lock, spin_unlock]
    | some lp =>
      cases kmalloc_ok <;> cases hu : lp.d_unhashed <;>
        cases hs : str_case_eq sbi.obbpath_s lp.d_path <;>
        simp [is_obbpath_invalid, spin_lock, spin_unlock, path_get, hu, hs]

theorem is_obbpath_invalid_iff_witness :
    (⟨false, some ⟨"/storage/emulated/obb".toList, false, 1⟩,
        some ⟨"/data/media/obb".toList, true, 1⟩⟩ : sdcardfs_dentry_info).orig_path ≠ none ∧
    (is_obbpath_invalid ⟨false, "/data/media/obb".toList⟩ true
      ⟨false, some ⟨"/storage/emulated/obb".toList, false, 1⟩,
        some ⟨"/data/media/obb".toList, true, 1⟩⟩).1 = 1 :=
  ⟨by decide,
   ((is_obbpath_invalid_iff ⟨false, "/data/media/obb".toList⟩ true
      ⟨false, some ⟨"/storage/emulated/obb".toList, false, 1⟩,
        some ⟨"/data/media/obb".toList, true, 1⟩⟩).2.1 (by decide)).2
     (Or.inr ⟨⟨"/data/media/obb".toList, true, 1⟩, rfl, Or.inr (Or.inl rfl)⟩)⟩

/-- C18: handle acquisitions and releases balance in `is_obbpath_invalid`:
for every input the number of `path_get` calls equals the number of
`path_put` calls, the record after the call is the record before it with the
lock released, so the reference count of the active handle is what it was,
and the lock is taken once and released once, before the handle is put.
The path buffer, when allocated, is freed. -/
theorem is_obbpath_invalid_balanced (sbi : sdcardfs_sb_info) (kmalloc_ok : Bool)
    (di : sdcardfs_dentry_info) :
    (is_obbpath_invalid_trace kmalloc_ok di).count obb_event.ev_path_get =
      (is_obbpath_invalid_trace kmalloc_ok di).count obb_event.ev_path_put ∧
    (is_obbpath_invalid sbi kmalloc_ok di).2 = { di with lock := false } ∧
    (is_obbpath_invalid sbi kmalloc_ok di).2.lower_path = di.lower_path ∧
    (is_obbpath_invalid sbi kmalloc_ok di).2.lock = false ∧
    (is_obbpath_invalid_trace kmalloc_ok di).count obb_event.ev_spin_lock = 1 ∧
    (is_obbpath_invalid_trace kmalloc_ok di).count obb_event.ev_spin_unlock = 1 ∧
    (is_obbpath_invalid_trace kmalloc_ok di).count obb_event.ev_kmalloc =
      (is_obbpath_invalid_trace kmalloc_ok di).count obb_event.ev_kfree ∧
    (∀ p : path, path_put (path_get p) = p) := by
  obtain ⟨lock, orig, lower⟩ := di
  have hp : ∀ p : path, path_put (path_get p) = p := by
    intro p
    simp [path_put, path_get]
  cases orig <;> cases lower <;> cases kmalloc_ok <;>
    simp [is_obbpath_invalid, is_obbpath_invalid_trace, spin_lock, spin_unlock, hp]

/-! ## The redirect candidate of the multi-user layout -/

theorem tolower_o_not_numeric (a : Char) (h : tolower a = 'o') :
    a ≠ '+' ∧ ¬ ('0' ≤ a ∧ a ≤ '9') := by
  constructor
  · intro ha
    subst ha
    exact absurd h (by decide)
  · intro hd
    unfold tolower at h
    split_ifs at h with hU
    · exact absurd (le_trans hU.1 hd.2) (by decide)
    · subst h
      exact absurd hd.2 (by decide)

theorem no_plus_sign_kept (s : Name) :
    (∀ t : Name, s ≠ '+' :: t) →
    (match s with
    | '+' :: t => t
    | _ => s) = s := by
  intro h
  split
  · rename_i t
    exact absurd rfl (h t)
  · rfl

theorem kstrtoul_non_numeric (s : Name) (a : Char) (t : Name) (hs : s = a :: t)
    (h1 : a ≠ '+') (h2 : ¬ ('0' ≤ a ∧ a ≤ '9')) :
    kstrtoul s = Except.error (-EINVAL) := by
  have hs1 := no_plus_sign_kept s (by
    intro t2 heq
    rw [hs] at heq
    exact h1 (List.cons.inj heq).1)
  have hp : parse_integer s 0 0 = (0, 0, s) := by
    rw [hs]
    simp only [parse_integer, if_neg h2]
  unfold kstrtoul
  simp only [hs1, hp]
  simp [ULONG_BITS]

theorem kstrtoul_obb (n : Name) (h : eq_ignoring_case n "obb".toList) :
    kstrtoul n = Except.error (-EINVAL) := by
  obtain ⟨hl, hm⟩ := h
  match n, hl, hm with
  | [a, b, c], _, hm =>
    have ha : tolower a = 'o' := by
      have := congrArg List.head? hm
      simpa using this
    obtain ⟨h1, h2⟩ := tolower_o_not_numeric a ha
    exact kstrtoul_non_numeric _ a [b, c] rfl h1 h2

/-- C19: in the multi-user layout the redirect-candidate directory is not
labelled as an OBB directory: for a PreRoot parent and a directory name equal
to "obb" ignoring case (where `is_base_obbpath` returns 1 with multiuser
enabled), `get_derived_permission_new` gives the child class Root, userid 0,
top the child itself, and under_obb, under_android and under_cache equal to
the parent's; and `need_graft_path` returns 0 for that node. -/
theorem pre_root_obb_not_labelled (pl : packagelist) (sbi : sdcardfs_sb_info) (P c : inode)
    (n : Name) (hP : P.info.perm = PERM_PRE_ROOT) (hdir : S_ISDIR c.i_mode = true)
    (hn : eq_ignoring_case n "obb".toList) :
    (get_derived_permission_new pl P c n).info.perm = PERM_ROOT ∧
    (get_derived_permission_new pl P c n).info.userid = 0 ∧
    (get_derived_permission_new pl P c n).info.top = c.i_ino ∧
    (get_derived_permission_new pl P c n).info.under_obb = P.info.under_obb ∧
    (get_derived_permission_new pl P c n).info.under_android = P.info.under_android ∧
    (get_derived_permission_new pl P c n).info.under_cache = P.info.under_cache ∧
    need_graft_path sbi P.info n = 0 ∧
    is_base_obbpath ⟨true, sbi.obbpath_s⟩ P.info n = 1 := by
  have hk := kstrtoul_obb n hn
  have hq : qstr_case_eq n q_obb = true := (qstr_case_eq_iff n q_obb).2 hn
  simp [get_derived_permission_new, inherit_derived_state, set_top, hdir, hP, hk,
    need_graft_path, is_base_obbpath, hq]

theorem pre_root_obb_not_labelled_witness :
    (parent_example PERM_PRE_ROOT 0).info.perm = PERM_PRE_ROOT ∧
    S_ISDIR dir_example.i_mode = true ∧
    eq_ignoring_case "Obb".toList "obb".toList ∧
    (get_derived_permission_new pl_example (parent_example PERM_PRE_ROOT 0) dir_example
      "Obb".toList).info.perm = PERM_ROOT ∧
    (get_derived_permission_new pl_example (parent_example PERM_PRE_ROOT 0) dir_example
      "Obb".toList).info.under_obb = false :=
  ⟨rfl, by decide, by decide,
   (pre_root_obb_not_labelled pl_example ⟨true, "/data/media/obb".toList⟩
     (parent_example PERM_PRE_ROOT 0) dir_example "Obb".toList rfl (by decide) (by decide)).1,
   (pre_root_obb_not_labelled pl_example ⟨true, "/data/media/obb".toList⟩
     (parent_example PERM_PRE_ROOT 0) dir_example "Obb".toList rfl (by decide)
     (by decide)).2.2.2.1⟩

/-! ## Reachable states -/

theorem derived_invariant_step (pl : packagelist) (P c : inode) (n : Name)
    (h : derived_invariant P.info) :
    derived_invariant (get_derived_permission_new pl P c n).info := by
  unfold derived_invariant at h ⊢
  cases hd : S_ISDIR c.i_mode <;> cases hp : P.info.perm <;>
    simp only [get_derived_permission_new, inherit_derived_state, set_top, hd, hp] <;>
    simp <;> (try split_ifs) <;> (try split) <;> simp_all

theorem derived_never_pre_root (pl : packagelist) (P c : inode) (n : Name) :
    (get_derived_permission_new pl P c n).info.perm ≠ PERM_PRE_ROOT ∧
    ((get_derived_permission_new pl P c n).info.perm = PERM_ROOT →
      P.info.perm = PERM_PRE_ROOT) := by
  cases hd : S_ISDIR c.i_mode <;> cases hp : P.info.perm <;>
    simp only [get_derived_permission_new, inherit_derived_state, set_top, hd, hp] <;>
    simp <;> (try split_ifs) <;> (try split) <;> simp_all

theorem derived_invariant_chain (pl : packagelist) (steps : List (inode × Name)) :
    ∀ P : inode, derived_invariant P.info →
      derived_invariant (derive_chain pl P steps).info := by
  induction steps with
  | nil => intro P h; exact h
  | cons st rest ih =>
    intro P h
    obtain ⟨c, n⟩ := st
    exact ih _ (derived_invariant_step pl P c n h)

theorem chain_never_pre_root (pl : packagelist) (steps : List (inode × Name)) :
    ∀ P : inode, steps ≠ [] → (derive_chain pl P steps).info.perm ≠ PERM_PRE_ROOT := by
  induction steps with
  | nil => intro P h; exact absurd rfl h
  | cons st rest ih =>
    intro P _
    obtain ⟨c, n⟩ := st
    cases rest with
    | nil => exact (derived_never_pre_root pl P c n).1
    | cons st2 rest2 => exact ih _ (by simp)

/-- C20: every state reached by a finite sequence of derivation steps from a
root seeded by `setup_derived_state` with class Root or PreRoot and
under_android false satisfies: a class among Android, AndroidData, AndroidObb,
AndroidMedia, AndroidPackage, AndroidPackageCache implies under_android;
under_obb implies under_android; under_cache implies under_android; class
AndroidObb implies under_obb; class AndroidPackageCache implies under_cache.
No derivation step produces class PreRoot, so no derived state has it, and
Root is produced only from a PreRoot parent. -/
theorem reachable_state_invariant (pl : packagelist) (i : inode) (perm : perm_t)
    (userid uid top : Nat) (steps : List (inode × Name)) (P c : inode) (n : Name)
    (hperm : perm = PERM_ROOT ∨ perm = PERM_PRE_ROOT) :
    derived_invariant
      (derive_chain pl (setup_derived_state i perm userid uid false top) steps).info ∧
    (steps ≠ [] →
      (derive_chain pl (setup_derived_state i perm userid uid false top) steps).info.perm ≠
        PERM_PRE_ROOT) ∧
    (get_derived_permission_new pl P c n).info.perm ≠ PERM_PRE_ROOT ∧
    ((get_derived_permission_new pl P c n).info.perm = PERM_ROOT →
      P.info.perm = PERM_PRE_ROOT) := by
  refine ⟨?_, ?_, derived_never_pre_root pl P c n⟩
  · apply derived_invariant_chain
    rcases hperm with h | h <;> subst h <;>
      simp [derived_invariant, setup_derived_state, set_top]
  · exact chain_never_pre_root pl steps _

theorem reachable_state_invariant_witness :
    (PERM_PRE_ROOT = PERM_ROOT ∨ PERM_PRE_ROOT = PERM_PRE_ROOT) ∧
    derived_invariant
      (derive_chain pl_foo (setup_derived_state dir_example PERM_PRE_ROOT 0 0 false 2)
        [(dir_example, "0".toList), (dir_example, "Android".toList),
         (dir_example, "obb".toList), (dir_example, "com.foo".toList),
         (file_example, "main.obb".toList)]).info ∧
    (derive_chain pl_foo (setup_derived_state dir_example PERM_PRE_ROOT 0 0 false 2)
        [(dir_example, "0".toList), (dir_example, "Android".toList),
         (dir_example, "obb".toList), (dir_example, "com.foo".toList),
         (file_example, "main.obb".toList)]).info.under_obb = true :=
  ⟨Or.inr rfl,
   (reachable_state_invariant pl_foo dir_example PERM_PRE_ROOT 0 0 2
     [(dir_example, "0".toList), (dir_example, "Android".toList),
      (dir_example, "obb".toList), (dir_example, "com.foo".toList),
      (file_example, "main.obb".toList)] dir_example dir_example [] (Or.inr rfl)).1,
   by decide⟩

end Sdcardfs
